import Mathlib

/-!
# Verification of the Circle entity-secret envelope and the HR backend glue

Shallow embedding of the repository code:

* `entity_secret.py` — `generate_entity_secret`: hex-decode the configured
  entity secret, check it is exactly 32 bytes, RSA-OAEP(SHA-256) encrypt it
  under the provider's public key, base64-encode the ciphertext.
* `circle_veretha.py` — `create_transfer`, `wallet_balance`, `create_wallet`.
* `hrapi.py` — the `/register`, `/login`, `/get-profile` handlers.

Bytes are modelled as `Nat` values (< 256); byte strings as `List Nat`.
Library calls of the source (PyCryptodome's `PKCS1_OAEP` with
`hashAlgo = SHA256`, `base64.b64encode`, `uuid.uuid4`, `bytes.fromhex`)
are embedded by their documented semantics.  Randomness consumed by the
code (the OAEP seed drawn by PyCryptodome, the 16 random bytes drawn by
`uuid.uuid4`) is passed as an explicit argument.  Network I/O is modelled
by an explicit `net` function plus a trace of outbound calls.
-/

set_option maxRecDepth 40000

/-! ## Byte-string primitives (RFC 8017 I2OSP / OS2IP) -/

/-- OS2IP: big-endian interpretation of a byte string as a natural number. -/
def os2ip (l : List Nat) : Nat :=
  l.foldl (fun acc b => acc * 256 + b) 0

/-- I2OSP: big-endian encoding of `x` as exactly `len` bytes
(truncating to the low `len` bytes, as the integer-to-bytes conversions
used by the source never overflow). -/
def i2osp (x : Nat) : (len : Nat) → List Nat
  | 0 => []
  | len + 1 => i2osp (x / 256) len ++ [x % 256]

/-- Pointwise xor of two byte strings (`strxor`); truncates to the shorter. -/
def bxor (a b : List Nat) : List Nat :=
  List.zipWith (fun x y => x ^^^ y) a b

/-! ## SHA-256 (FIPS 180-4), as fixed by `hashAlgo=SHA256` in the source -/

/-- Truncation to a 32-bit word. -/
def w32 (x : Nat) : Nat := x % 4294967296

/-- Right rotation of a 32-bit word by `n` bits. -/
def rotr32 (n x : Nat) : Nat := w32 (x / 2 ^ n + x % 2 ^ n * 2 ^ (32 - n))

/-- Right shift of a 32-bit word by `n` bits. -/
def shr32 (n x : Nat) : Nat := x / 2 ^ n

/-- Bitwise complement of a 32-bit word. -/
def not32 (x : Nat) : Nat := x ^^^ 4294967295

/-- SHA-256 Σ₀. -/
def bsig0 (x : Nat) : Nat := rotr32 2 x ^^^ rotr32 13 x ^^^ rotr32 22 x

/-- SHA-256 Σ₁. -/
def bsig1 (x : Nat) : Nat := rotr32 6 x ^^^ rotr32 11 x ^^^ rotr32 25 x

/-- SHA-256 σ₀. -/
def ssig0 (x : Nat) : Nat := rotr32 7 x ^^^ rotr32 18 x ^^^ shr32 3 x

/-- SHA-256 σ₁. -/
def ssig1 (x : Nat) : Nat := rotr32 17 x ^^^ rotr32 19 x ^^^ shr32 10 x

/-- SHA-256 Ch. -/
def shaCh (x y z : Nat) : Nat := (x &&& y) ^^^ (not32 x &&& z)

/-- SHA-256 Maj. -/
def shaMaj (x y z : Nat) : Nat := (x &&& y) ^^^ (x &&& z) ^^^ (y &&& z)

/-- The 64 SHA-256 round constants. -/
def sha256K : List Nat :=
  [1116352408, 1899447441, 3049323471, 3921009573, 961987163,
   1508970993, 2453635748, 2870763221, 3624381080, 310598401,
   607225278, 1426881987, 1925078388, 2162078206, 2614888103,
   3248222580, 3835390401, 4022224774, 264347078, 604807628,
   770255983, 1249150122, 1555081692, 1996064986, 2554220882,
   2821834349, 2952996808, 3210313671, 3336571891, 3584528711,
   113926993, 338241895, 666307205, 773529912, 1294757372,
   1396182291, 1695183700, 1986661051, 2177026350, 2456956037,
   2730485921, 2820302411, 3259730800, 3345764771, 3516065817,
   3600352804, 4094571909, 275423344, 430227734, 506948616,
   659060556, 883997877, 958139571, 1322822218, 1537002063,
   1747873779, 1955562222, 2024104815, 2227730452, 2361852424,
   2428436474, 2756734187, 3204031479, 3329325298]

/-- Working state of the SHA-256 compression function. -/
structure Sha256State where
  a : Nat
  b : Nat
  c : Nat
  d : Nat
  e : Nat
  f : Nat
  g : Nat
  h : Nat

/-- Initial SHA-256 hash value. -/
def sha256Init : Sha256State :=
  ⟨1779033703, 3144134277, 1013904242, 2773480762,
   1359893119, 2600822924, 528734635, 1541459225⟩

/-- Extend a 16-word message schedule by `count` further words. -/
def sha256Schedule (w : List Nat) : Nat → List Nat
  | 0 => w
  | count + 1 =>
    let l := sha256Schedule w count
    l ++ [w32 (ssig1 (l.getD (l.length - 2) 0) + l.getD (l.length - 7) 0 +
               ssig0 (l.getD (l.length - 15) 0) + l.getD (l.length - 16) 0)]

/-- One SHA-256 round; `kw` is the pair of round constant and schedule word. -/
def sha256Round (s : Sha256State) (kw : Nat × Nat) : Sha256State :=
  let t1 := w32 (s.h + bsig1 s.e + shaCh s.e s.f s.g + kw.1 + kw.2)
  let t2 := w32 (bsig0 s.a + shaMaj s.a s.b s.c)
  ⟨w32 (t1 + t2), s.a, s.b, s.c, w32 (s.d + t1), s.e, s.f, s.g⟩

/-- Process one 64-byte block. -/
def sha256Block (s : Sha256State) (blk : List Nat) : Sha256State :=
  let w16 := (List.range 16).map fun i => os2ip ((blk.drop (4 * i)).take 4)
  let w := sha256Schedule w16 48
  let r := (sha256K.zip w).foldl sha256Round s
  ⟨w32 (s.a + r.a), w32 (s.b + r.b), w32 (s.c + r.c), w32 (s.d + r.d),
   w32 (s.e + r.e), w32 (s.f + r.f), w32 (s.g + r.g), w32 (s.h + r.h)⟩

/-- SHA-256 padding: append `0x80`, zeros, and the 64-bit bit length. -/
def sha256Pad (m : List Nat) : List Nat :=
  m ++ 128 :: List.replicate ((119 - m.length % 64) % 64) 0 ++ i2osp (m.length * 8) 8

/-- SHA-256 of a byte string, producing the 32-byte digest. -/
def sha256 (m : List Nat) : List Nat :=
  let p := sha256Pad m
  let s := (List.range (p.length / 64)).foldl
    (fun st i => sha256Block st ((p.drop (64 * i)).take 64)) sha256Init
  i2osp s.a 4 ++ i2osp s.b 4 ++ i2osp s.c 4 ++ i2osp s.d 4 ++
  i2osp s.e 4 ++ i2osp s.f 4 ++ i2osp s.g 4 ++ i2osp s.h 4

/-! ## MGF1 and RSA-OAEP (PyCryptodome `PKCS1_OAEP` with `hashAlgo = SHA256`,
which takes MGF1 over the same hash and an empty label) -/

/-- MGF1 mask generation (RFC 8017 B.2.1) for a hash with 32-byte digests. -/
def mgf1 (hash : List Nat → List Nat) (seed : List Nat) (maskLen : Nat) : List Nat :=
  (((List.range ((maskLen + 31) / 32)).map fun c => hash (seed ++ i2osp c 4)).flatten).take maskLen

/-- An RSA public key as the source receives it from `RSA.import_key`:
modulus and public exponent (PEM parsing itself is not modelled). -/
structure RSAPublicKey where
  n : Nat
  e : Nat

/-- An RSA private key (held only by the test harness of the spec's
round-trip property, never by the system). -/
structure RSAPrivateKey where
  n : Nat
  d : Nat

/-- The key's `size_in_bytes()`: the byte length of the modulus. -/
def modBytes (n : Nat) : Nat := (Nat.log2 n + 8) / 8

/-- Fuel-driven fast modular exponentiation; the fuel bounds the number of
halvings of the exponent. -/
def powModAux : Nat → Nat → Nat → Nat → Nat
  | 0, _, _, _ => 1
  | fuel + 1, b, e, n =>
    if e = 0 then 1 % n
    else
      let r := powModAux fuel (b * b % n) (e / 2) n
      if e % 2 = 1 then b * r % n else r

/-- Modular exponentiation `b ^ e mod n` (the `pow` used by the library). -/
def powMod (b e n : Nat) : Nat := powModAux (e + 1) b e n

/-- Exceptions the embedded Python code can raise. -/
inductive PyError where
  | valueError (msg : String)
  | attributeError
  | typeError
  | indexError
  | keyError
deriving DecidableEq

/-- The OAEP-encoded block EM (RFC 8017 7.1.1 step 2) for a modulus of `k`
bytes, a random 32-byte `seed`, message `msg`, and an empty label. -/
def oaepEM (hash : List Nat → List Nat) (k : Nat) (seed msg : List Nat) : List Nat :=
  let lHash := hash []
  let ps := List.replicate (k - msg.length - 2 * 32 - 2) 0
  let db := lHash ++ ps ++ [1] ++ msg
  let dbMask := mgf1 hash seed (k - 32 - 1)
  let maskedDB := bxor db dbMask
  let seedMask := mgf1 hash maskedDB 32
  let maskedSeed := bxor seed seedMask
  0 :: (maskedSeed ++ maskedDB)

/-- `PKCS1_OAEP.encrypt`: OAEP-encode then RSA-encrypt.  Raises
`ValueError` when the message does not fit the modulus. -/
def pkcs1OaepEncrypt (hash : List Nat → List Nat) (key : RSAPublicKey)
    (seed msg : List Nat) : Except PyError (List Nat) :=
  let k := modBytes key.n
  if (msg.length : Int) > (k : Int) - 2 * 32 - 2 then
    .error (.valueError "Plaintext is too long.")
  else
    .ok (i2osp (powMod (os2ip (oaepEM hash k seed msg)) key.e key.n) k)

/-- The OAEP decoding step of `PKCS1_OAEP.decrypt` (RFC 8017 7.1.2 step 3)
on the recovered encoded block `em`. -/
def oaepDecode (hash : List Nat → List Nat) (k : Nat) (em : List Nat) :
    Option (List Nat) :=
  let y := em.headD 1
  let maskedSeed := (em.drop 1).take 32
  let maskedDB := em.drop 33
  let seed := bxor maskedSeed (mgf1 hash maskedDB 32)
  let db := bxor maskedDB (mgf1 hash seed (k - 32 - 1))
  let lHash := hash []
  if y ≠ 0 then none
  else if db.take 32 ≠ lHash then none
  else
    match (db.drop 32).dropWhile (fun b => b == 0) with
    | [] => none
    | s :: m => if s = 1 then some m else none

/-- `PKCS1_OAEP.decrypt`: RSA-decrypt then OAEP-decode; any integrity
failure is a `ValueError`, modelled as `none`. -/
def pkcs1OaepDecrypt (hash : List Nat → List Nat) (key : RSAPrivateKey)
    (ct : List Nat) : Option (List Nat) :=
  let k := modBytes key.n
  if ct.length ≠ k ∨ (k : Int) < 2 * 32 + 2 then none
  else oaepDecode hash k (i2osp (powMod (os2ip ct) key.d key.n) k)

/-! ## base64 (`base64.b64encode` / `b64decode` on alphabet-only input) -/

/-- The base64 alphabet. -/
def b64chars : List Char :=
  "ABCDEFGHIJKLMNOPQRSTUVWXYZabcdefghijklmnopqrstuvwxyz0123456789+/".toList

/-- Character for a 6-bit group. -/
def b64encChar (x : Nat) : Char := b64chars.getD x 'A'

/-- Index of a base64 character in the alphabet. -/
def b64decChar (c : Char) : Option Nat := b64chars.findIdx? (fun d => d = c)

/-- `base64.b64encode`, three input bytes at a time. -/
def b64encodeList : List Nat → List Char
  | [] => []
  | [a] => [b64encChar (a / 4), b64encChar (a % 4 * 16), '=', '=']
  | [a, b] => [b64encChar (a / 4), b64encChar (a % 4 * 16 + b / 16),
               b64encChar (b % 16 * 4), '=']
  | a :: b :: c :: rest =>
    b64encChar (a / 4) :: b64encChar (a % 4 * 16 + b / 16) ::
    b64encChar (b % 16 * 4 + c / 64) :: b64encChar (c % 64) :: b64encodeList rest

/-- `base64.b64decode` on well-formed input, four characters at a time. -/
def b64decodeList : List Char → Option (List Nat)
  | [] => some []
  | c1 :: c2 :: c3 :: c4 :: rest =>
    (b64decChar c1).bind fun s1 =>
    (b64decChar c2).bind fun s2 =>
    if c3 = '=' then
      if c4 = '=' ∧ rest = [] then some [s1 * 4 + s2 / 16] else none
    else
      (b64decChar c3).bind fun s3 =>
      if c4 = '=' then
        if rest = [] then some [s1 * 4 + s2 / 16, s2 % 16 * 16 + s3 / 4] else none
      else
        (b64decChar c4).bind fun s4 =>
        (b64decodeList rest).map fun bs =>
          (s1 * 4 + s2 / 16) :: (s2 % 16 * 16 + s3 / 4) :: (s3 % 4 * 64 + s4) :: bs
  | _ => none

/-- `base64.b64encode(..).decode()`: the printable ciphertext string. -/
def b64encode (l : List Nat) : String := String.mk (b64encodeList l)

/-- `base64.b64decode` of a string. -/
def b64decode (s : String) : Option (List Nat) := b64decodeList s.data

/-! ## `bytes.fromhex` -/

/-- Value of one hexadecimal digit. -/
def hexDigit? (c : Char) : Option Nat :=
  if '0' ≤ c ∧ c ≤ '9' then some (c.toNat - 48)
  else if 'a' ≤ c ∧ c ≤ 'f' then some (c.toNat - 87)
  else if 'A' ≤ c ∧ c ≤ 'F' then some (c.toNat - 55)
  else none

/-- `bytes.fromhex` on whitespace-free input: two hex digits per byte. -/
def hexDecodeList : List Char → Option (List Nat)
  | [] => some []
  | c1 :: c2 :: rest =>
    (hexDigit? c1).bind fun h =>
    (hexDigit? c2).bind fun l =>
    (hexDecodeList rest).map fun bs => (h * 16 + l) :: bs
  | _ => none

/-- `bytes.fromhex` of a string. -/
def hexDecode (s : String) : Option (List Nat) := hexDecodeList s.data

/-! ## `entity_secret.py` -/

/-- `generate_entity_secret` (entity_secret.py:11-33): hex-decode the
configured secret, insist on exactly 32 bytes, encrypt it with RSA-OAEP
under SHA-256 and base64-encode the result.  The environment reads are
modelled as the arguments `publicKey` (already parsed from its PEM) and
`hexEncodedEntitySecret`; `seed` is the fresh 32-byte OAEP seed drawn
internally by PyCryptodome. -/
def generate_entity_secret (publicKey : RSAPublicKey)
    (hexEncodedEntitySecret : String) (seed : List Nat) : Except PyError String :=
  match hexDecode hexEncodedEntitySecret with
  | none => .error (.valueError "non-hexadecimal number found in fromhex() arg")
  | some entity_secret =>
    if entity_secret.length ≠ 32 then
      .error (.valueError "Invalid entity secret length. Expected 32 bytes.")
    else
      match pkcs1OaepEncrypt sha256 publicKey seed entity_secret with
      | .error err => .error err
      | .ok encrypted_data => .ok (b64encode encrypted_data)

/-! ## `uuid.uuid4()` (CPython `uuid` module) -/

/-- Force the UUID version nibble (bits 76-79 of the 128-bit value) to 4,
as `UUID.__init__` does for `version=4`. -/
def setVersion4 (x : Nat) : Nat :=
  x / 2 ^ 80 * 2 ^ 80 + 4 * 2 ^ 76 + x % 2 ^ 76

/-- Force the RFC 4122 variant bits (bits 62-63) to `10`. -/
def setVariantRFC (x : Nat) : Nat :=
  x / 2 ^ 64 * 2 ^ 64 + 2 ^ 63 + x % 2 ^ 62

/-- The 128-bit integer of `uuid.uuid4()` built from 16 `os.urandom` bytes. -/
def uuid4Int (r : List Nat) : Nat := setVariantRFC (setVersion4 (os2ip r))

/-- A lowercase hexadecimal digit character. -/
def hexLowerChar (d : Nat) : Char :=
  Char.ofNat (if d < 10 then 48 + d else 87 + d)

/-- The 32 hex digits of a 128-bit value, most significant first
(CPython's `'%032x' % int`). -/
def uuidDigits (x : Nat) : List Char :=
  (List.range 32).map fun i => hexLowerChar (x / 16 ^ (31 - i) % 16)

/-- `str(UUID(...))`: the canonical hyphenated 8-4-4-4-12 rendering. -/
def uuidCanonical (x : Nat) : String :=
  let l := uuidDigits x
  String.mk (l.take 8 ++ '-' :: ((l.drop 8).take 4) ++ '-' :: ((l.drop 12).take 4) ++
             '-' :: ((l.drop 16).take 4) ++ '-' :: l.drop 20)

/-- `str(uuid.uuid4())` as a function of the 16 random bytes consumed. -/
def uuid4FromBytes (r : List Nat) : String := uuidCanonical (uuid4Int r)

/-! ## JSON values and the HTTP collaborator model -/

/-- Parsed JSON values (`response.json()` results, request bodies). -/
inductive JVal where
  | null
  | jbool (b : Bool)
  | jnum (n : Int)
  | jstr (s : String)
  | jarr (elems : List JVal)
  | jobj (fields : List (String × JVal))

/-- An outbound HTTP request. -/
structure HRequest where
  method : String
  url : String
  headers : List (String × String)
  body : JVal

/-- A provider response: status code and the JSON body
(`none` models a body on which `response.json()` raises). -/
structure HResponse where
  status : Nat
  body : Option JVal

/-- First binding of a key in a JSON object. -/
def jsonLookup (fields : List (String × JVal)) (k : String) : Option JVal :=
  (fields.find? (fun p => p.1 == k)).map Prod.snd

/-- Python `v.get(k)`: `None` when absent, `AttributeError` when `v` is not
a dict. -/
def pyGet (v : JVal) (k : String) : Except PyError JVal :=
  match v with
  | .jobj fields => .ok ((jsonLookup fields k).getD .null)
  | _ => .error .attributeError

/-- Python `v.get(k, dflt)`. -/
def pyGetD (v : JVal) (k : String) (dflt : JVal) : Except PyError JVal :=
  match v with
  | .jobj fields => .ok ((jsonLookup fields k).getD dflt)
  | _ => .error .attributeError

/-- Python truthiness of a JSON value. -/
def pyTruthy (v : JVal) : Bool :=
  match v with
  | .null => false
  | .jbool b => b
  | .jnum n => decide (n ≠ 0)
  | .jstr s => decide (s ≠ "")
  | .jarr l => !l.isEmpty
  | .jobj l => !l.isEmpty

/-- Python `v[0]` on a JSON value. -/
def pyIndex0 (v : JVal) : Except PyError JVal :=
  match v with
  | .jarr (x :: _) => .ok x
  | .jarr [] => .error .indexError
  | .jstr s =>
    match s.data with
    | c :: _ => .ok (.jstr (String.mk [c]))
    | [] => .error .indexError
  | .jobj _ => .error .keyError
  | _ => .error .typeError

/-- An outbound call made by `circle_veretha.py`: either a direct HTTP
request via `requests`, or the Circle SDK's wallet-set creation. -/
inductive OutboundCall where
  | http (req : HRequest)
  | sdkCreateWalletSet (name : String)

/-! ## `circle_veretha.py` -/

/-- The `payload` dict literal of `create_transfer` (circle_veretha.py:27-35),
in source order. -/
def create_transfer_payload (idempotencyKey entitySecretCipherText amount
    destination_address from_wallet_id : String) : List (String × JVal) :=
  [("idempotencyKey", .jstr idempotencyKey),
   ("entitySecretCipherText", .jstr entitySecretCipherText),
   ("amounts", .jarr [.jstr amount]),
   ("destinationAddress", .jstr destination_address),
   ("feeLevel", .jstr "HIGH"),
   ("tokenId", .jstr "5797fbd6-3795-519d-84ca-ec4c5f80c3b1"),
   ("walletId", .jstr from_wallet_id)]

/-- `create_transfer` (circle_veretha.py:16-48).  Returns the result of
`response.json().get('data').get('id')` (or the exception raised on the
way) together with the trace of outbound calls. -/
def create_transfer (from_wallet_id amount destination_address : String)
    (publicKey : RSAPublicKey) (hexSecret : String) (oaepSeed uuidRandom : List Nat)
    (circleApiKey : String) (net : HRequest → HResponse) :
    Except PyError JVal × List OutboundCall :=
  match generate_entity_secret publicKey hexSecret oaepSeed with
  | .error err => (.error err, [])
  | .ok entitySecretCipherText =>
    let idempotencyKey := uuid4FromBytes uuidRandom
    let payload := create_transfer_payload idempotencyKey entitySecretCipherText
      amount destination_address from_wallet_id
    let req : HRequest :=
      { method := "POST"
        url := "https://api.circle.com/v1/w3s/developer/transactions/transfer"
        headers := [("Content-Type", "application/json"),
                    ("Authorization", "Bearer " ++ circleApiKey)]
        body := .jobj payload }
    let response := net req
    let result :=
      match response.body with
      | none => Except.error (PyError.valueError "Expecting value: line 1 column 1 (char 0)")
      | some parsed => (pyGet parsed "data").bind fun d => pyGet d "id"
    (result, [.http req])

/-- The parsing step of `wallet_balance` (circle_veretha.py:62-74), before
the surrounding `try`/`except`. -/
def wallet_balance_inner (data : JVal) : Except PyError JVal :=
  (pyGetD data "data" (.jobj [])).bind fun d =>
  (pyGetD d "tokenBalances" (.jarr [])).bind fun token_balances =>
  if pyTruthy token_balances then
    (pyIndex0 token_balances).bind fun token_balance =>
    pyGetD token_balance "amount" (.jstr "0")
  else
    .ok (.jstr "0")

/-- What `wallet_balance` returns for a given response body: every failure
of parsing is caught by the `except` clause and turned into `"0"`. -/
def wallet_balance_result (body : Option JVal) : JVal :=
  match body with
  | none => .jstr "0"
  | some data =>
    match wallet_balance_inner data with
    | .ok v => v
    | .error _ => .jstr "0"

/-- `wallet_balance` (circle_veretha.py:51-77). -/
def wallet_balance (wallet_id : String) (circleApiKey : String)
    (net : HRequest → HResponse) : JVal × List OutboundCall :=
  let req : HRequest :=
    { method := "GET"
      url := "https://api.circle.com/v1/w3s/wallets/" ++ wallet_id ++ "/balances"
      headers := [("Authorization", "Bearer " ++ circleApiKey),
                  ("Content-Type", "application/json")]
      body := .null }
  (wallet_balance_result (net req).body, [.http req])

/-- The JSON document that the f-string `payload` of `create_wallet`
(circle_veretha.py:128-142) denotes. -/
def create_wallet_payload (name ref_id entitySecretCiphertext idempotencyKey
    walletSetId : String) : List (String × JVal) :=
  [("blockchains", .jarr [.jstr "ETH-SEPOLIA"]),
   ("metadata", .jarr [.jobj [("name", .jstr name), ("refId", .jstr ref_id)]]),
   ("count", .jnum 1),
   ("entitySecretCiphertext", .jstr entitySecretCiphertext),
   ("idempotencyKey", .jstr idempotencyKey),
   ("walletSetId", .jstr walletSetId)]

/-- `create_wallet` (circle_veretha.py:80-154).  The Circle SDK call that
creates the wallet set is the opaque collaborator `sdkCreateWalletSet`,
returning the new wallet set id or raising.  The whole block after client
construction sits in `try`/`except Exception`, which prints and returns
`None` (modelled as `.ok none`). -/
def create_wallet (email name ref_id : String)
    (publicKey : RSAPublicKey) (hexSecret : String) (oaepSeed uuidRandom : List Nat)
    (circleApiKey : String) (sdkCreateWalletSet : String → Except PyError String)
    (net : HRequest → HResponse) :
    Except PyError (Option (JVal × JVal)) × List OutboundCall :=
  match generate_entity_secret publicKey hexSecret oaepSeed with
  | .error err => (.error err, [])
  | .ok entitySecretCipherText =>
    let idempotencyKey := uuid4FromBytes uuidRandom
    if circleApiKey = "" then (.ok none, [])
    else
      match sdkCreateWalletSet email with
      | .error _ => (.ok none, [.sdkCreateWalletSet email])
      | .ok wallet_set_id =>
        let payload := create_wallet_payload name ref_id entitySecretCipherText
          idempotencyKey wallet_set_id
        let req : HRequest :=
          { method := "POST"
            url := "https://api.circle.com/v1/w3s/developer/wallets"
            headers := [("Authorization", "Bearer " ++ circleApiKey),
                        ("Content-Type", "application/json")]
            body := .jobj payload }
        let response := net req
        let parsed : Except PyError (JVal × JVal) :=
          match response.body with
          | none => .error (.valueError "Expecting value: line 1 column 1 (char 0)")
          | some body =>
            (pyGetD body "data" (.jobj [])).bind fun d =>
            (pyGetD d "wallets" (.jarr [])).bind fun wallets =>
            (pyIndex0 wallets).bind fun w0 =>
            (pyGet w0 "id").bind fun theId =>
            (pyGetD body "data" (.jobj [])).bind fun d2 =>
            (pyGetD d2 "wallets" (.jarr [])).bind fun wallets2 =>
            (pyIndex0 wallets2).bind fun w0b =>
            (pyGet w0b "address").map fun addr => (theId, addr)
        match parsed with
        | .error _ => (.ok none, [.sdkCreateWalletSet email, .http req])
        | .ok pair => (.ok (some pair), [.sdkCreateWalletSet email, .http req])

/-! ## `hrapi.py`: users, registration, login, profile -/

/-- A row of the `users` table (hrapi.py:44-58). -/
structure UserRow where
  id : Nat
  email : String
  password : String
  full_name : String
  occupation : String
  company : String
  skills : String
  country : String
  city : String
  linkedin_url : String
  verified : Bool
  wallet_id : String
  wallet_address : String

/-- The `UserCreate` request model (hrapi.py:80-90). -/
structure UserCreate where
  email : String
  password : String
  full_name : String
  occupation : String
  company : String
  skills : String
  country : String
  city : String
  linkedin_url : String
  verified : Bool

/-- FastAPI's `HTTPException`. -/
structure HTTPException where
  status_code : Nat
  detail : String

/-- `db.query(User).filter(User.email == email).first()`. -/
def findUserByEmail (db : List UserRow) (email : String) : Option UserRow :=
  db.find? (fun u => u.email == email)

/-- The response dict built identically by `/register`, `/login` and
`/get-profile` (hrapi.py:124-137, 345-358, 253-266): every column except
`password`. -/
def userProfileDict (u : UserRow) : List (String × JVal) :=
  [("id", .jnum u.id),
   ("email", .jstr u.email),
   ("full_name", .jstr u.full_name),
   ("occupation", .jstr u.occupation),
   ("company", .jstr u.company),
   ("skills", .jstr u.skills),
   ("country", .jstr u.country),
   ("city", .jstr u.city),
   ("linkedin_url", .jstr u.linkedin_url),
   ("verified", .jbool u.verified),
   ("wallet_id", .jstr u.wallet_id),
   ("wallet_address", .jstr u.wallet_address)]

/-- `/register` (hrapi.py:93-137).  `hashPw` is `pwd_context.hash`; the
wallet provisioning call is the opaque pair `walletIdAddr`; `newId` is the
primary key the ORM assigns on commit.  Returns the response (or the 400
error) and the updated table. -/
def register_user (user : UserCreate) (db : List UserRow)
    (hashPw : String → String) (newId : Nat) (walletIdAddr : String × String) :
    Except HTTPException (List (String × JVal)) × List UserRow :=
  match findUserByEmail db user.email with
  | some _ => (.error ⟨400, "Email already registered"⟩, db)
  | none =>
    let hashed_password := hashPw user.password
    let new_user : UserRow :=
      { id := newId
        email := user.email
        password := hashed_password
        full_name := user.full_name
        occupation := user.occupation
        company := user.company
        skills := user.skills
        country := user.country
        city := user.city
        linkedin_url := user.linkedin_url
        verified := user.verified
        wallet_id := walletIdAddr.1
        wallet_address := walletIdAddr.2 }
    (.ok (userProfileDict new_user), db ++ [new_user])

/-- `/login` (hrapi.py:336-358).  `verifyPw` is `pwd_context.verify`
(attempt first, stored hash second). -/
def login_user (email password : String) (db : List UserRow)
    (verifyPw : String → String → Bool) :
    Except HTTPException (List (String × JVal)) :=
  match findUserByEmail db email with
  | none => .error ⟨400, "Invalid credentials"⟩
  | some db_user =>
    if verifyPw password db_user.password then .ok (userProfileDict db_user)
    else .error ⟨400, "Invalid credentials"⟩

/-- `/get-profile/{email}` (hrapi.py:243-266). -/
def get_profile (email : String) (db : List UserRow) :
    Except HTTPException (List (String × JVal)) :=
  match findUserByEmail db email with
  | none => .error ⟨404, "User not found"⟩
  | some db_user => .ok (userProfileDict db_user)

/-- Replace the stored password hash of a row by an arbitrary function of
the row (used to state that responses do not depend on it). -/
def setPw (f : UserRow → String) (u : UserRow) : UserRow :=
  { u with password := f u }

/-! ## Spec-side definitions (written from the spec's words, to be compared
with the code-side definitions above) -/

/-- The spec's envelope ciphertext: "Encrypt the 32-byte secret using RSA
with OAEP padding, mask-generation function and hash both set to SHA-256",
then "Base64-encode the resulting ciphertext bytes". -/
def specEntitySecretCiphertext (key : RSAPublicKey) (seed secret : List Nat) : String :=
  b64encode (i2osp (powMod (os2ip (oaepEM sha256 (modBytes key.n) seed secret)) key.e key.n)
    (modBytes key.n))

/-- A lowercase hexadecimal digit character. -/
def lowerHexChar (c : Char) : Bool := "0123456789abcdef".toList.contains c

/-- The spec's canonical idempotency-key format: 8-4-4-4-12 lowercase hex
groups separated by hyphens, with the version nibble (the first digit of
the third group) equal to 4. -/
def isUuid4String (s : String) : Bool :=
  match s.data with
  | a1 :: a2 :: a3 :: a4 :: a5 :: a6 :: a7 :: a8 :: m1 ::
    b1 :: b2 :: b3 :: b4 :: m2 ::
    v :: c2 :: c3 :: c4 :: m3 ::
    w :: e2 :: e3 :: e4 :: m4 ::
    f1 :: f2 :: f3 :: f4 :: f5 :: f6 :: f7 :: f8 :: f9 :: f10 :: f11 :: f12 :: [] =>
    m1 == '-' && m2 == '-' && m3 == '-' && m4 == '-' && v == '4' &&
    [a1, a2, a3, a4, a5, a6, a7, a8, b1, b2, b3, b4, c2, c3, c4,
     w, e2, e3, e4, f1, f2, f3, f4, f5, f6, f7, f8, f9, f10, f11, f12].all lowerHexChar
  | _ => false

/-- The transfer-call field set claimed by the spec:
`{entitySecretCiphertext, idempotencyKey, walletId, destinationAddress,
amount, tokenId, feeLevel}`. -/
def specTransferFields : List String :=
  ["entitySecretCiphertext", "idempotencyKey", "walletId",
   "destinationAddress", "amount", "tokenId", "feeLevel"]

/-! ## Lemmas: OS2IP / I2OSP -/

theorem os2ip_foldl (a : Nat) (l : List Nat) :
    l.foldl (fun acc b => acc * 256 + b) a = a * 256 ^ l.length + os2ip l := by
  induction l generalizing a with
  | nil => simp [os2ip]
  | cons b t ih =>
    show t.foldl _ (a * 256 + b) = _
    rw [ih (a * 256 + b)]
    have hb : os2ip (b :: t) = b * 256 ^ t.length + os2ip t := by
      show t.foldl _ (0 * 256 + b) = _
      rw [ih]
      ring_nf
    rw [hb]
    simp [List.length_cons, pow_succ]
    ring

theorem os2ip_cons (b : Nat) (t : List Nat) :
    os2ip (b :: t) = b * 256 ^ t.length + os2ip t := by
  show t.foldl _ (0 * 256 + b) = _
  rw [os2ip_foldl]
  ring_nf

theorem os2ip_append (l1 l2 : List Nat) :
    os2ip (l1 ++ l2) = os2ip l1 * 256 ^ l2.length + os2ip l2 := by
  show (l1 ++ l2).foldl _ 0 = _
  rw [List.foldl_append, os2ip_foldl]
  rfl

theorem os2ip_lt (l : List Nat) (h : ∀ b ∈ l, b < 256) : os2ip l < 256 ^ l.length := by
  induction l with
  | nil => simp [os2ip]
  | cons b t ih =>
    rw [os2ip_cons]
    have hb : b < 256 := h b (by simp)
    have ht : os2ip t < 256 ^ t.length := ih (fun x hx => h x (by simp [hx]))
    calc b * 256 ^ t.length + os2ip t < b * 256 ^ t.length + 256 ^ t.length := by omega
    _ = (b + 1) * 256 ^ t.length := by ring
    _ ≤ 256 * 256 ^ t.length := Nat.mul_le_mul_right _ (by omega)
    _ = 256 ^ (b :: t).length := by rw [List.length_cons, pow_succ]; ring

theorem length_i2osp (x len : Nat) : (i2osp x len).length = len := by
  induction len generalizing x with
  | zero => rfl
  | succ m ih => simp [i2osp, ih]

theorem i2osp_mem_lt (x len : Nat) : ∀ b ∈ i2osp x len, b < 256 := by
  induction len generalizing x with
  | zero => simp [i2osp]
  | succ m ih =>
    intro b hb
    simp only [i2osp, List.mem_append, List.mem_singleton] at hb
    rcases hb with hb | hb
    · exact ih _ b hb
    · omega

theorem os2ip_i2osp (x len : Nat) : os2ip (i2osp x len) = x % 256 ^ len := by
  induction len generalizing x with
  | zero => simp [i2osp, os2ip, Nat.mod_one]
  | succ m ih =>
    rw [i2osp, os2ip_append, ih]
    have h1 : os2ip [x % 256] = x % 256 := by simp [os2ip]
    have h2 : (256 : Nat) ^ (m + 1) = 256 * 256 ^ m := by rw [pow_succ]; ring
    rw [h1, h2, Nat.mod_mul]
    simp [length_i2osp]
    ring

theorem i2osp_os2ip (l : List Nat) (h : ∀ b ∈ l, b < 256) :
    i2osp (os2ip l) l.length = l := by
  induction l using List.reverseRecOn with
  | nil => rfl
  | append_singleton t b ih =>
    have hb : b < 256 := h b (by simp)
    have ht : ∀ x ∈ t, x < 256 := fun x hx => h x (by simp [hx])
    have happ : os2ip (t ++ [b]) = os2ip t * 256 + b := by
      rw [os2ip_append]
      simp [os2ip]
    rw [happ]
    have hlen : (t ++ [b]).length = t.length + 1 := by simp
    rw [hlen, i2osp]
    have hdiv : (os2ip t * 256 + b) / 256 = os2ip t := by omega
    have hmod : (os2ip t * 256 + b) % 256 = b := by omega
    rw [hdiv, hmod, ih ht]

theorem os2ip_zero_cons (l : List Nat) : os2ip (0 :: l) = os2ip l := by
  rw [os2ip_cons]; ring_nf

/-! ## Lemmas: modular exponentiation -/

theorem powModAux_eq (fuel : Nat) : ∀ e b n, e < fuel → powModAux fuel b e n = b ^ e % n := by
  induction fuel with
  | zero => omega
  | succ f ih =>
    intro e b n he
    rw [powModAux]
    by_cases h0 : e = 0
    · simp [h0]
    · simp only [h0, if_false]
      have hrec : powModAux f (b * b % n) (e / 2) n = (b * b % n) ^ (e / 2) % n := by
        apply ih
        omega
      rw [hrec, ← Nat.pow_mod]
      have hbb : (b * b) ^ (e / 2) = b ^ (2 * (e / 2)) := by
        rw [pow_mul]; ring_nf
      by_cases hodd : e % 2 = 1
      · simp only [hodd, if_true]
        calc b * ((b * b) ^ (e / 2) % n) % n
            = b % n * ((b * b) ^ (e / 2) % n % n) % n := by rw [Nat.mul_mod]
          _ = b % n * ((b * b) ^ (e / 2) % n) % n := by rw [Nat.mod_mod_of_dvd _ dvd_rfl]
          _ = b * (b * b) ^ (e / 2) % n := by rw [← Nat.mul_mod]
          _ = b ^ e % n := by
              rw [hbb, ← pow_succ']
              have h2 : 2 * (e / 2) + 1 = e := by omega
              rw [h2]
      · have heven : e % 2 = 0 := by omega
        simp only [hodd, if_false]
        rw [hbb]
        have h2 : 2 * (e / 2) = e := by omega
        rw [h2]

theorem powMod_eq (b e n : Nat) : powMod b e n = b ^ e % n :=
  powModAux_eq (e + 1) e b n (by omega)

/-! ## Lemmas: xor masking -/

theorem length_bxor (a b : List Nat) : (bxor a b).length = min a.length b.length := by
  simp [bxor]

theorem bxor_bxor_cancel (a : List Nat) : ∀ b : List Nat, a.length ≤ b.length →
    bxor (bxor a b) b = a := by
  induction a with
  | nil => intro b _; rfl
  | cons x t ih =>
    intro b hb
    cases b with
    | nil => simp at hb
    | cons y s =>
      simp only [bxor, List.zipWith_cons_cons, List.cons.injEq]
      constructor
      · exact Nat.xor_cancel_right y x
      · exact ih s (by simpa using hb)

theorem bxor_mem_lt (a b : List Nat) (ha : ∀ u ∈ a, u < 256) (hb : ∀ v ∈ b, v < 256) :
    ∀ x ∈ bxor a b, x < 256 := by
  induction a generalizing b with
  | nil => simp [bxor]
  | cons u t ih =>
    cases b with
    | nil => simp [bxor]
    | cons v s =>
      intro x hx
      simp only [bxor, List.zipWith_cons_cons, List.mem_cons] at hx
      rcases hx with hx | hx
      · subst hx
        have h1 : u < 2 ^ 8 := ha u (by simp)
        have h2 : v < 2 ^ 8 := hb v (by simp)
        exact Nat.xor_lt_two_pow h1 h2
      · exact ih s (fun z hz => ha z (by simp [hz])) (fun z hz => hb z (by simp [hz])) x hx

/-! ## Lemmas: MGF1 and SHA-256 output shape -/

theorem length_mgf1 (hash : List Nat → List Nat) (h32 : ∀ x, (hash x).length = 32)
    (seed : List Nat) (maskLen : Nat) : (mgf1 hash seed maskLen).length = maskLen := by
  rw [mgf1, List.length_take]
  have htot : (((List.range ((maskLen + 31) / 32)).map fun c => hash (seed ++ i2osp c 4)).flatten).length
      = ((maskLen + 31) / 32) * 32 := by
    rw [List.length_flatten, List.map_map]
    have : ((List.range ((maskLen + 31) / 32)).map
        (List.length ∘ fun c => hash (seed ++ i2osp c 4))) =
        (List.range ((maskLen + 31) / 32)).map (fun _ => 32) := by
      apply List.map_congr_left
      intro c _
      exact h32 _
    rw [this, List.map_const', List.sum_replicate, List.length_range, smul_eq_mul]
  rw [htot]
  omega

theorem mgf1_mem_lt (hash : List Nat → List Nat) (hlt : ∀ x, ∀ b ∈ hash x, b < 256)
    (seed : List Nat) (maskLen : Nat) : ∀ b ∈ mgf1 hash seed maskLen, b < 256 := by
  intro b hb
  rw [mgf1] at hb
  have hb2 := List.mem_of_mem_take hb
  rw [List.mem_flatten] at hb2
  obtain ⟨l, hl, hbl⟩ := hb2
  rw [List.mem_map] at hl
  obtain ⟨c, _, hc⟩ := hl
  subst hc
  exact hlt _ b hbl

theorem sha256_length (m : List Nat) : (sha256 m).length = 32 := by
  simp [sha256, length_i2osp]

theorem sha256_mem_lt (m : List Nat) : ∀ b ∈ sha256 m, b < 256 := by
  intro b hb
  simp only [sha256, List.mem_append] at hb
  rcases hb with ((((((hb | hb) | hb) | hb) | hb) | hb) | hb) | hb <;>
    exact i2osp_mem_lt _ _ b hb

/-! ## Lemmas: modulus byte length -/

theorem modBytes_bounds (n : Nat) (h : 1 ≤ n) :
    256 ^ (modBytes n - 1) ≤ n ∧ n < 256 ^ modBytes n := by
  have hlow : 2 ^ Nat.log2 n ≤ n := Nat.log2_self_le (by omega)
  have hhigh : n < 2 ^ (Nat.log2 n + 1) := Nat.lt_log2_self
  set L := Nat.log2 n with hL
  have hk : modBytes n = (L + 8) / 8 := rfl
  constructor
  · calc (256 : Nat) ^ (modBytes n - 1) = (2 ^ 8) ^ (modBytes n - 1) := by norm_num
    _ = 2 ^ (8 * (modBytes n - 1)) := by rw [← pow_mul]
    _ ≤ 2 ^ L := Nat.pow_le_pow_right (by omega) (by rw [hk]; omega)
    _ ≤ n := hlow
  · calc n < 2 ^ (L + 1) := hhigh
    _ ≤ 2 ^ (8 * modBytes n) := Nat.pow_le_pow_right (by omega) (by rw [hk]; omega)
    _ = (2 ^ 8) ^ modBytes n := by rw [← pow_mul]
    _ = 256 ^ modBytes n := by norm_num

theorem modBytes_eq (n k : Nat) (h1 : 256 ^ (k - 1) ≤ n) (h2 : n < 256 ^ k)
    (hk : 1 ≤ k) : modBytes n = k := by
  have hn : 1 ≤ n := le_trans (Nat.one_le_pow _ _ (by omega)) h1
  obtain ⟨hb1, hb2⟩ := modBytes_bounds n hn
  by_contra hne
  rcases Nat.lt_or_ge (modBytes n) k with hlt | hge
  · have : (256 : Nat) ^ modBytes n ≤ 256 ^ (k - 1) :=
      Nat.pow_le_pow_right (by omega) (by omega)
    omega
  · have hgt : k < modBytes n := by omega
    have : (256 : Nat) ^ k ≤ 256 ^ (modBytes n - 1) :=
      Nat.pow_le_pow_right (by omega) (by omega)
    omega

/-! ## Lemmas: hex decoding -/

theorem hexDigit?_lt (c : Char) (d : Nat) (h : hexDigit? c = some d) : d < 16 := by
  rw [hexDigit?] at h
  split_ifs at h with h1 h2 h3 <;> simp only [Option.some.injEq] at h
  · obtain ⟨_, hc2⟩ := h1
    have : c.toNat ≤ 57 := hc2
    omega
  · obtain ⟨_, hc2⟩ := h2
    have : c.toNat ≤ 102 := hc2
    omega
  · obtain ⟨_, hc2⟩ := h3
    have : c.toNat ≤ 70 := hc2
    omega

theorem hexDecodeList_mem_lt : ∀ (cs : List Char) (bs : List Nat),
    hexDecodeList cs = some bs → ∀ b ∈ bs, b < 256
  | [], bs, h => by
    simp only [hexDecodeList, Option.some.injEq] at h
    subst h
    simp
  | [c], bs, h => by
    rw [show hexDecodeList [c] = none from rfl] at h
    exact absurd h (by simp)
  | c1 :: c2 :: rest, bs, h => by
    rw [hexDecodeList] at h
    simp only [Option.bind_eq_some, Option.map_eq_some'] at h
    obtain ⟨hi, hd1, lo, hd2, bs', hrest, hcons⟩ := h
    subst hcons
    intro b hb
    rcases List.mem_cons.mp hb with hb | hb
    · have h1 := hexDigit?_lt c1 hi hd1
      have h2 := hexDigit?_lt c2 lo hd2
      omega
    · exact hexDecodeList_mem_lt rest bs' hrest b hb

/-! ## Lemmas: RSA inversion -/

theorem pow_modEq_self_prime (p m T : Nat) (hp : p.Prime) (hdvd : (p - 1) ∣ T) :
    m ^ (T + 1) ≡ m [MOD p] := by
  haveI : Fact p.Prime := ⟨hp⟩
  rw [← ZMod.natCast_eq_natCast_iff, Nat.cast_pow]
  by_cases h0 : (m : ZMod p) = 0
  · rw [h0, zero_pow (by omega)]
  · obtain ⟨s, hs⟩ := hdvd
    rw [hs, pow_succ, pow_mul, ZMod.pow_card_sub_one_eq_one h0, one_pow, one_mul]

theorem rsa_pow_inverse (p q E m : Nat) (hp : p.Prime) (hq : q.Prime) (hne : p ≠ q)
    (hE : E ≡ 1 [MOD (p - 1) * (q - 1)]) : m ^ E ≡ m [MOD p * q] := by
  have hp2 : 2 ≤ p := hp.two_le
  have hq2 : 2 ≤ q := hq.two_le
  have ht2 : 2 ≤ (p - 1) * (q - 1) ∨ p = 2 ∨ q = 2 := by
    rcases Nat.lt_or_ge p 3 with h | h
    · right; left; omega
    · rcases Nat.lt_or_ge q 3 with h' | h'
      · right; right; omega
      · left; calc 2 ≤ 2 * 2 := by omega
          _ ≤ (p - 1) * (q - 1) := Nat.mul_le_mul (by omega) (by omega)
  have ht : 2 ≤ (p - 1) * (q - 1) := by
    rcases ht2 with h | h | h
    · exact h
    · subst h
      have : 3 ≤ q := by rcases Nat.lt_or_ge q 3 with h' | h' <;> omega
      calc 2 ≤ 1 * (q - 1) := by omega
        _ ≤ (2 - 1) * (q - 1) := by omega
    · subst h
      have : 3 ≤ p := by rcases Nat.lt_or_ge p 3 with h' | h' <;> omega
      calc 2 ≤ (p - 1) * 1 := by omega
        _ ≤ (p - 1) * (2 - 1) := by omega
  have hE1 : E % ((p - 1) * (q - 1)) = 1 := by
    have := hE
    rw [Nat.ModEq] at this
    rw [this, Nat.mod_eq_of_lt (by omega)]
  have hEpos : 1 ≤ E := by
    by_contra h
    have : E = 0 := by omega
    rw [this] at hE1
    simp at hE1
  obtain ⟨s, hs⟩ : ∃ s, E = (p - 1) * (q - 1) * s + 1 := by
    refine ⟨E / ((p - 1) * (q - 1)), ?_⟩
    have := Nat.div_add_mod E ((p - 1) * (q - 1))
    omega
  have hmodp : m ^ E ≡ m [MOD p] := by
    rw [hs]
    exact pow_modEq_self_prime p m _ hp ⟨(q - 1) * s, by ring⟩
  have hmodq : m ^ E ≡ m [MOD q] := by
    rw [hs]
    exact pow_modEq_self_prime q m _ hq ⟨(p - 1) * s, by ring⟩
  have hco : Nat.Coprime p q := (Nat.coprime_primes hp hq).mpr hne
  exact (Nat.modEq_and_modEq_iff_modEq_mul hco).mp ⟨hmodp, hmodq⟩

theorem rsa_decrypt_encrypt (p q e d m : Nat) (hp : p.Prime) (hq : q.Prime)
    (hne : p ≠ q) (hed : e * d ≡ 1 [MOD (p - 1) * (q - 1)]) (hm : m < p * q) :
    powMod (powMod m e (p * q)) d (p * q) = m := by
  have hn : 1 ≤ p * q := by
    have := hp.two_le
    have := hq.two_le
    calc 1 ≤ 2 * 2 := by omega
    _ ≤ p * q := Nat.mul_le_mul hp.two_le hq.two_le
  rw [powMod_eq, powMod_eq, ← Nat.pow_mod, ← pow_mul]
  have h1 : m ^ (e * d) ≡ m [MOD p * q] := rsa_pow_inverse p q (e * d) m hp hq hne hed
  rw [Nat.ModEq] at h1
  rw [h1, Nat.mod_eq_of_lt hm]

/-! ## Lemmas: padding-string scan -/

theorem dropWhile_zero_replicate (n : Nat) (l : List Nat) :
    (List.replicate n 0 ++ l).dropWhile (fun b => b == 0) = l.dropWhile (fun b => b == 0) := by
  induction n with
  | zero => simp
  | succ m ih => rw [List.replicate_succ, List.cons_append, List.dropWhile_cons]; simp [ih]

/-! ## Lemmas: base64 round trip -/

theorem b64decChar_encChar : ∀ x, x < 64 → b64decChar (b64encChar x) = some x := by decide

theorem b64encChar_ne_pad : ∀ x, x < 64 → b64encChar x ≠ '=' := by decide

theorem b64_roundtrip : ∀ l : List Nat, (∀ b ∈ l, b < 256) →
    b64decodeList (b64encodeList l) = some l
  | [], _ => rfl
  | [a], h => by
    have ha : a < 256 := h a (by simp)
    have h1 : a / 4 < 64 := by omega
    have h2 : a % 4 * 16 < 64 := by omega
    rw [b64encodeList, b64decodeList, b64decChar_encChar _ h1, b64decChar_encChar _ h2]
    simp only [Option.some_bind]
    rw [if_pos trivial, if_pos (⟨trivial, trivial⟩ : True ∧ True)]
    have e1 : a / 4 * 4 + a % 4 * 16 / 16 = a := by omega
    rw [e1]
  | [a, b], h => by
    have ha : a < 256 := h a (by simp)
    have hb : b < 256 := h b (by simp)
    have h1 : a / 4 < 64 := by omega
    have h2 : a % 4 * 16 + b / 16 < 64 := by omega
    have h3 : b % 16 * 4 < 64 := by omega
    rw [b64encodeList, b64decodeList, b64decChar_encChar _ h1, b64decChar_encChar _ h2]
    simp only [Option.some_bind]
    rw [if_neg (b64encChar_ne_pad _ h3), b64decChar_encChar _ h3]
    simp only [Option.some_bind]
    rw [if_pos trivial, if_pos trivial]
    have e1 : a / 4 * 4 + (a % 4 * 16 + b / 16) / 16 = a := by omega
    have e2 : (a % 4 * 16 + b / 16) % 16 * 16 + b % 16 * 4 / 4 = b := by omega
    rw [e1, e2]
  | a :: b :: c :: rest, h => by
    have ha : a < 256 := h a (by simp)
    have hb : b < 256 := h b (by simp)
    have hc : c < 256 := h c (by simp)
    have h1 : a / 4 < 64 := by omega
    have h2 : a % 4 * 16 + b / 16 < 64 := by omega
    have h3 : b % 16 * 4 + c / 64 < 64 := by omega
    have h4 : c % 64 < 64 := by omega
    have ih := b64_roundtrip rest (fun x hx => h x (by simp [hx]))
    rw [b64encodeList, b64decodeList, b64decChar_encChar _ h1, b64decChar_encChar _ h2]
    simp only [Option.some_bind]
    rw [if_neg (b64encChar_ne_pad _ h3), b64decChar_encChar _ h3]
    simp only [Option.some_bind]
    rw [if_neg (b64encChar_ne_pad _ h4), b64decChar_encChar _ h4]
    simp only [Option.some_bind]
    rw [ih]
    simp only [Option.map_some']
    have e1 : a / 4 * 4 + (a % 4 * 16 + b / 16) / 16 = a := by omega
    have e2 : (a % 4 * 16 + b / 16) % 16 * 16 + (b % 16 * 4 + c / 64) / 4 = b := by omega
    have e3 : (b % 16 * 4 + c / 64) % 4 * 64 + c % 64 = c := by omega
    rw [e1, e2, e3]

theorem b64decode_b64encode (l : List Nat) (h : ∀ b ∈ l, b < 256) :
    b64decode (b64encode l) = some l := by
  rw [b64decode, b64encode]
  exact b64_roundtrip l h

theorem b64encode_injOn (l1 l2 : List Nat) (h1 : ∀ b ∈ l1, b < 256)
    (h2 : ∀ b ∈ l2, b < 256) (he : b64encode l1 = b64encode l2) : l1 = l2 := by
  have := b64decode_b64encode l1 h1
  rw [he, b64decode_b64encode l2 h2] at this
  exact (Option.some.injEq _ _).mp this.symm

/-! ## Lemmas: OAEP round trip -/

theorem oaepEM_decomp (hash : List Nat → List Nat) (k : Nat) (seed msg : List Nat) :
    oaepEM hash k seed msg =
      0 :: (bxor seed (mgf1 hash (bxor
              (hash [] ++ List.replicate (k - msg.length - 2 * 32 - 2) 0 ++ [1] ++ msg)
              (mgf1 hash seed (k - 32 - 1))) 32) ++
            bxor (hash [] ++ List.replicate (k - msg.length - 2 * 32 - 2) 0 ++ [1] ++ msg)
              (mgf1 hash seed (k - 32 - 1))) := rfl

theorem oaepDecode_spec (hash : List Nat → List Nat)
    (h32 : ∀ x, (hash x).length = 32)
    (k : Nat) (seed msg db : List Nat) (hk : 98 ≤ k) (hs : seed.length = 32)
    (hm : msg.length = 32)
    (hdb : db = hash [] ++ List.replicate (k - msg.length - 2 * 32 - 2) 0 ++ [1] ++ msg) :
    oaepDecode hash k
      (0 :: (bxor seed (mgf1 hash (bxor db (mgf1 hash seed (k - 32 - 1))) 32) ++
             bxor db (mgf1 hash seed (k - 32 - 1)))) = some msg := by
  have hdbMlen : (mgf1 hash seed (k - 32 - 1)).length = k - 32 - 1 :=
    length_mgf1 hash h32 seed _
  have hdblen : db.length = k - 33 := by
    rw [hdb]
    simp only [List.length_append, List.length_replicate, List.length_cons,
      List.length_nil, h32 []]
    omega
  have hAlen : (bxor db (mgf1 hash seed (k - 32 - 1))).length = k - 33 := by
    rw [length_bxor, hdblen, hdbMlen]
    omega
  have hsmlen : (mgf1 hash (bxor db (mgf1 hash seed (k - 32 - 1))) 32).length = 32 :=
    length_mgf1 hash h32 _ 32
  have hBlen : (bxor seed (mgf1 hash (bxor db (mgf1 hash seed (k - 32 - 1))) 32)).length = 32 := by
    rw [length_bxor, hs, hsmlen]
    omega
  simp only [oaepDecode]
  rw [show (33 : Nat) = 32 + 1 from rfl, List.drop_succ_cons, List.drop_succ_cons,
    List.drop_zero]
  rw [List.take_left' hBlen, List.drop_left' hBlen]
  rw [bxor_bxor_cancel seed _ (by rw [hsmlen]; omega)]
  rw [bxor_bxor_cancel db _ (by rw [hdbMlen]; omega)]
  rw [List.headD_cons]
  rw [if_neg (by simp : ¬ (0 : Nat) ≠ 0)]
  have hassoc : db = hash [] ++ (List.replicate (k - msg.length - 2 * 32 - 2) 0 ++ ([1] ++ msg)) := by
    rw [hdb, List.append_assoc, List.append_assoc]
  have htake32 : db.take 32 = hash [] := by rw [hassoc]; exact List.take_left' (h32 [])
  rw [if_neg (by simp [htake32])]
  have hdrop32 : db.drop 32 = List.replicate (k - msg.length - 2 * 32 - 2) 0 ++ ([1] ++ msg) := by
    rw [hassoc]
    exact List.drop_left' (h32 [])
  rw [hdrop32, dropWhile_zero_replicate]
  rw [show ([1] ++ msg : List Nat) = 1 :: msg from rfl]
  rw [List.dropWhile_cons]
  simp

theorem pkcs1OaepEncrypt_eq (hash : List Nat → List Nat) (key : RSAPublicKey)
    (seed msg : List Nat) (hk : 98 ≤ modBytes key.n) (hm : msg.length = 32) :
    pkcs1OaepEncrypt hash key seed msg =
      .ok (i2osp (powMod (os2ip (oaepEM hash (modBytes key.n) seed msg)) key.e key.n)
        (modBytes key.n)) := by
  rw [pkcs1OaepEncrypt]
  rw [if_neg (by rw [hm]; push_cast; omega)]

theorem oaepEM_bytes (hash : List Nat → List Nat)
    (h32 : ∀ x, (hash x).length = 32) (hlt : ∀ x, ∀ b ∈ hash x, b < 256)
    (k : Nat) (seed msg : List Nat) (hk : 98 ≤ k) (hs : seed.length = 32)
    (hslt : ∀ b ∈ seed, b < 256) (hm : msg.length = 32) (hmlt : ∀ b ∈ msg, b < 256) :
    (oaepEM hash k seed msg).length = k ∧ (∀ b ∈ oaepEM hash k seed msg, b < 256) := by
  rw [oaepEM_decomp]
  have hdblen : (hash [] ++ List.replicate (k - msg.length - 2 * 32 - 2) 0 ++ [1] ++ msg).length = k - 33 := by
    simp only [List.length_append, List.length_replicate, List.length_cons,
      List.length_nil, h32 []]
    omega
  have hdblt : ∀ b ∈ hash [] ++ List.replicate (k - msg.length - 2 * 32 - 2) 0 ++ [1] ++ msg, b < 256 := by
    intro b hb
    simp only [List.mem_append, List.mem_replicate, List.mem_singleton] at hb
    rcases hb with ((hb | hb) | hb) | hb
    · exact hlt [] b hb
    · omega
    · omega
    · exact hmlt b hb
  have hdbMlen : (mgf1 hash seed (k - 32 - 1)).length = k - 32 - 1 :=
    length_mgf1 hash h32 seed _
  have hAlen : (bxor (hash [] ++ List.replicate (k - msg.length - 2 * 32 - 2) 0 ++ [1] ++ msg)
      (mgf1 hash seed (k - 32 - 1))).length = k - 33 := by
    rw [length_bxor, hdblen, hdbMlen]
    omega
  have hBlen : (bxor seed (mgf1 hash (bxor
      (hash [] ++ List.replicate (k - msg.length - 2 * 32 - 2) 0 ++ [1] ++ msg)
      (mgf1 hash seed (k - 32 - 1))) 32)).length = 32 := by
    rw [length_bxor, hs, length_mgf1 hash h32 _ 32]
    omega
  constructor
  · simp only [List.length_cons, List.length_append, hAlen, hBlen]
    omega
  · intro b hb
    rcases List.mem_cons.mp hb with hb | hb
    · omega
    · rcases List.mem_append.mp hb with hb | hb
      · exact bxor_mem_lt _ _ hslt (mgf1_mem_lt hash hlt _ _) b hb
      · exact bxor_mem_lt _ _ hdblt (mgf1_mem_lt hash hlt _ _) b hb

theorem oaep_roundtrip (hash : List Nat → List Nat)
    (h32 : ∀ x, (hash x).length = 32) (hlt : ∀ x, ∀ b ∈ hash x, b < 256)
    (p q e d : Nat) (hp : p.Prime) (hq : q.Prime) (hne : p ≠ q)
    (hed : e * d ≡ 1 [MOD (p - 1) * (q - 1)])
    (hk : 98 ≤ modBytes (p * q))
    (seed msg : List Nat) (hs : seed.length = 32) (hslt : ∀ b ∈ seed, b < 256)
    (hm : msg.length = 32) (hmlt : ∀ b ∈ msg, b < 256)
    (ct : List Nat) (hct : pkcs1OaepEncrypt hash ⟨p * q, e⟩ seed msg = .ok ct) :
    pkcs1OaepDecrypt hash ⟨p * q, d⟩ ct = some msg := by
  have hn4 : 4 ≤ p * q := by
    calc 4 = 2 * 2 := rfl
    _ ≤ p * q := Nat.mul_le_mul hp.two_le hq.two_le
  obtain ⟨hb1, hb2⟩ := modBytes_bounds (p * q) (by omega)
  rw [pkcs1OaepEncrypt_eq hash ⟨p * q, e⟩ seed msg hk hm] at hct
  have hct2 : ct = i2osp (powMod (os2ip (oaepEM hash (modBytes (p * q)) seed msg)) e (p * q))
      (modBytes (p * q)) := (Except.ok.inj hct).symm
  obtain ⟨hemlen, hemlt⟩ := oaepEM_bytes hash h32 hlt (modBytes (p * q)) seed msg hk hs hslt hm hmlt
  have hX : os2ip (oaepEM hash (modBytes (p * q)) seed msg) < p * q := by
    rw [oaepEM_decomp, os2ip_zero_cons]
    have hlen2 : (bxor seed (mgf1 hash (bxor
        (hash [] ++ List.replicate ((modBytes (p * q)) - msg.length - 2 * 32 - 2) 0 ++ [1] ++ msg)
        (mgf1 hash seed ((modBytes (p * q)) - 32 - 1))) 32) ++
        bxor (hash [] ++ List.replicate ((modBytes (p * q)) - msg.length - 2 * 32 - 2) 0 ++ [1] ++ msg)
        (mgf1 hash seed ((modBytes (p * q)) - 32 - 1))).length = modBytes (p * q) - 1 := by
      have := hemlen
      rw [oaepEM_decomp, List.length_cons] at this
      omega
    calc os2ip _ < 256 ^ (modBytes (p * q) - 1) := by
          rw [← hlen2]
          apply os2ip_lt
          intro b hb
          apply hemlt
          rw [oaepEM_decomp]
          exact List.mem_cons_of_mem _ hb
    _ ≤ p * q := hb1
  have hc_lt : powMod (os2ip (oaepEM hash (modBytes (p * q)) seed msg)) e (p * q) < p * q := by
    rw [powMod_eq]
    exact Nat.mod_lt _ (by omega)
  rw [pkcs1OaepDecrypt]
  dsimp only
  have hctlen : ct.length = modBytes (p * q) := by rw [hct2, length_i2osp]
  rw [if_neg (by push_cast; omega)]
  have hosct : os2ip ct = powMod (os2ip (oaepEM hash (modBytes (p * q)) seed msg)) e (p * q) := by
    rw [hct2, os2ip_i2osp]
    exact Nat.mod_eq_of_lt (by omega)
  rw [hosct, rsa_decrypt_encrypt p q e d _ hp hq hne hed hX]
  have hi2em : i2osp (os2ip (oaepEM hash (modBytes (p * q)) seed msg)) (modBytes (p * q)) =
      oaepEM hash (modBytes (p * q)) seed msg := by
    have hgen := i2osp_os2ip (oaepEM hash (modBytes (p * q)) seed msg) hemlt
    rw [hemlen] at hgen
    exact hgen
  rw [hi2em, oaepEM_decomp]
  exact oaepDecode_spec hash h32 (modBytes (p * q)) seed msg _ hk hs hm rfl

/-! ## Lemmas: UUID strings -/

theorem uuidCanonical_data (x : Nat) : (uuidCanonical x).data =
    [hexLowerChar (x / 16 ^ 31 % 16),
     hexLowerChar (x / 16 ^ 30 % 16),
     hexLowerChar (x / 16 ^ 29 % 16),
     hexLowerChar (x / 16 ^ 28 % 16),
     hexLowerChar (x / 16 ^ 27 % 16),
     hexLowerChar (x / 16 ^ 26 % 16),
     hexLowerChar (x / 16 ^ 25 % 16),
     hexLowerChar (x / 16 ^ 24 % 16),
     '-',
     hexLowerChar (x / 16 ^ 23 % 16),
     hexLowerChar (x / 16 ^ 22 % 16),
     hexLowerChar (x / 16 ^ 21 % 16),
     hexLowerChar (x / 16 ^ 20 % 16),
     '-',
     hexLowerChar (x / 16 ^ 19 % 16),
     hexLowerChar (x / 16 ^ 18 % 16),
     hexLowerChar (x / 16 ^ 17 % 16),
     hexLowerChar (x / 16 ^ 16 % 16),
     '-',
     hexLowerChar (x / 16 ^ 15 % 16),
     hexLowerChar (x / 16 ^ 14 % 16),
     hexLowerChar (x / 16 ^ 13 % 16),
     hexLowerChar (x / 16 ^ 12 % 16),
     '-',
     hexLowerChar (x / 16 ^ 11 % 16),
     hexLowerChar (x / 16 ^ 10 % 16),
     hexLowerChar (x / 16 ^ 9 % 16),
     hexLowerChar (x / 16 ^ 8 % 16),
     hexLowerChar (x / 16 ^ 7 % 16),
     hexLowerChar (x / 16 ^ 6 % 16),
     hexLowerChar (x / 16 ^ 5 % 16),
     hexLowerChar (x / 16 ^ 4 % 16),
     hexLowerChar (x / 16 ^ 3 % 16),
     hexLowerChar (x / 16 ^ 2 % 16),
     hexLowerChar (x / 16 ^ 1 % 16),
     hexLowerChar (x / 16 ^ 0 % 16)] := rfl

theorem lowerHexChar_hexLowerChar : ∀ d, d < 16 → lowerHexChar (hexLowerChar d) = true := by
  decide

theorem lowerHexChar_mod16 (y : Nat) : lowerHexChar (hexLowerChar (y % 16)) = true :=
  lowerHexChar_hexLowerChar (y % 16) (Nat.mod_lt y (by omega))

theorem hexLowerChar_inj : ∀ a, a < 16 → ∀ b, b < 16 → hexLowerChar a = hexLowerChar b → a = b := by
  decide

theorem uuid4Int_nibble (r : List Nat) : uuid4Int r / 16 ^ 19 % 16 = 4 := by
  rw [uuid4Int, setVariantRFC, setVersion4]
  have e1 : (2 : Nat) ^ 80 = 1208925819614629174706176 := by norm_num
  have e2 : (2 : Nat) ^ 76 = 75557863725914323419136 := by norm_num
  have e3 : (2 : Nat) ^ 64 = 18446744073709551616 := by norm_num
  have e4 : (2 : Nat) ^ 63 = 9223372036854775808 := by norm_num
  have e5 : (2 : Nat) ^ 62 = 4611686018427387904 := by norm_num
  have e6 : (16 : Nat) ^ 19 = 75557863725914323419136 := by norm_num
  rw [e1, e2, e3, e4, e5, e6]
  omega

theorem hexLowerChar_four : hexLowerChar 4 = '4' := rfl

theorem uuidCanonical_isUuid4 (x : Nat) (h4 : x / 16 ^ 19 % 16 = 4) :
    isUuid4String (uuidCanonical x) = true := by
  rw [isUuid4String, uuidCanonical_data]
  simp only [List.all_cons, List.all_nil, Bool.and_eq_true, beq_iff_eq, h4,
    hexLowerChar_four, lowerHexChar_mod16, and_true, true_and]


theorem digits16_ext : ∀ (w x y : Nat), x < 16 ^ w → y < 16 ^ w →
    (∀ j, j < w → x / 16 ^ j % 16 = y / 16 ^ j % 16) → x = y := by
  intro w
  induction w with
  | zero =>
    intro x y hx hy _
    simp [pow_zero] at hx hy
    omega
  | succ v ih =>
    intro x y hx hy hj
    have h0 : x % 16 = y % 16 := by
      have h := hj 0 (by omega)
      simpa using h
    have hx2 : x / 16 < 16 ^ v := by
      rw [Nat.div_lt_iff_lt_mul (by omega)]
      calc x < 16 ^ (v + 1) := hx
      _ = 16 ^ v * 16 := by rw [pow_succ]
    have hy2 : y / 16 < 16 ^ v := by
      rw [Nat.div_lt_iff_lt_mul (by omega)]
      calc y < 16 ^ (v + 1) := hy
      _ = 16 ^ v * 16 := by rw [pow_succ]
    have hstep : x / 16 = y / 16 := by
      apply ih _ _ hx2 hy2
      intro j hjv
      rw [Nat.div_div_eq_div_mul, Nat.div_div_eq_div_mul]
      have h2 := hj (j + 1) (by omega)
      rw [pow_succ'] at h2
      exact h2
    omega

theorem uuidCanonical_inj (x y : Nat) (hx : x < 16 ^ 32) (hy : y < 16 ^ 32)
    (h : uuidCanonical x = uuidCanonical y) : x = y := by
  have hdata := congrArg String.data h
  rw [uuidCanonical_data, uuidCanonical_data] at hdata
  simp only [List.cons.injEq, and_true, true_and] at hdata
  obtain ⟨e31, e30, e29, e28, e27, e26, e25, e24, e23, e22, e21, e20, e19, e18, e17, e16, e15, e14, e13, e12, e11, e10, e9, e8, e7, e6, e5, e4, e3, e2, e1, e0⟩ := hdata
  have d31 : x / 16 ^ 31 % 16 = y / 16 ^ 31 % 16 :=
    hexLowerChar_inj _ (Nat.mod_lt _ (by omega)) _ (Nat.mod_lt _ (by omega)) e31
  have d30 : x / 16 ^ 30 % 16 = y / 16 ^ 30 % 16 :=
    hexLowerChar_inj _ (Nat.mod_lt _ (by omega)) _ (Nat.mod_lt _ (by omega)) e30
  have d29 : x / 16 ^ 29 % 16 = y / 16 ^ 29 % 16 :=
    hexLowerChar_inj _ (Nat.mod_lt _ (by omega)) _ (Nat.mod_lt _ (by omega)) e29
  have d28 : x / 16 ^ 28 % 16 = y / 16 ^ 28 % 16 :=
    hexLowerChar_inj _ (Nat.mod_lt _ (by omega)) _ (Nat.mod_lt _ (by omega)) e28
  have d27 : x / 16 ^ 27 % 16 = y / 16 ^ 27 % 16 :=
    hexLowerChar_inj _ (Nat.mod_lt _ (by omega)) _ (Nat.mod_lt _ (by omega)) e27
  have d26 : x / 16 ^ 26 % 16 = y / 16 ^ 26 % 16 :=
    hexLowerChar_inj _ (Nat.mod_lt _ (by omega)) _ (Nat.mod_lt _ (by omega)) e26
  have d25 : x / 16 ^ 25 % 16 = y / 16 ^ 25 % 16 :=
    hexLowerChar_inj _ (Nat.mod_lt _ (by omega)) _ (Nat.mod_lt _ (by omega)) e25
  have d24 : x / 16 ^ 24 % 16 = y / 16 ^ 24 % 16 :=
    hexLowerChar_inj _ (Nat.mod_lt _ (by omega)) _ (Nat.mod_lt _ (by omega)) e24
  have d23 : x / 16 ^ 23 % 16 = y / 16 ^ 23 % 16 :=
    hexLowerChar_inj _ (Nat.mod_lt _ (by omega)) _ (Nat.mod_lt _ (by omega)) e23
  have d22 : x / 16 ^ 22 % 16 = y / 16 ^ 22 % 16 :=
    hexLowerChar_inj _ (Nat.mod_lt _ (by omega)) _ (Nat.mod_lt _ (by omega)) e22
  have d21 : x / 16 ^ 21 % 16 = y / 16 ^ 21 % 16 :=
    hexLowerChar_inj _ (Nat.mod_lt _ (by omega)) _ (Nat.mod_lt _ (by omega)) e21
  have d20 : x / 16 ^ 20 % 16 = y / 16 ^ 20 % 16 :=
    hexLowerChar_inj _ (Nat.mod_lt _ (by omega)) _ (Nat.mod_lt _ (by omega)) e20
  have d19 : x / 16 ^ 19 % 16 = y / 16 ^ 19 % 16 :=
    hexLowerChar_inj _ (Nat.mod_lt _ (by omega)) _ (Nat.mod_lt _ (by omega)) e19
  have d18 : x / 16 ^ 18 % 16 = y / 16 ^ 18 % 16 :=
    hexLowerChar_inj _ (Nat.mod_lt _ (by omega)) _ (Nat.mod_lt _ (by omega)) e18
  have d17 : x / 16 ^ 17 % 16 = y / 16 ^ 17 % 16 :=
    hexLowerChar_inj _ (Nat.mod_lt _ (by omega)) _ (Nat.mod_lt _ (by omega)) e17
  have d16 : x / 16 ^ 16 % 16 = y / 16 ^ 16 % 16 :=
    hexLowerChar_inj _ (Nat.mod_lt _ (by omega)) _ (Nat.mod_lt _ (by omega)) e16
  have d15 : x / 16 ^ 15 % 16 = y / 16 ^ 15 % 16 :=
    hexLowerChar_inj _ (Nat.mod_lt _ (by omega)) _ (Nat.mod_lt _ (by omega)) e15
  have d14 : x / 16 ^ 14 % 16 = y / 16 ^ 14 % 16 :=
    hexLowerChar_inj _ (Nat.mod_lt _ (by omega)) _ (Nat.mod_lt _ (by omega)) e14
  have d13 : x / 16 ^ 13 % 16 = y / 16 ^ 13 % 16 :=
    hexLowerChar_inj _ (Nat.mod_lt _ (by omega)) _ (Nat.mod_lt _ (by omega)) e13
  have d12 : x / 16 ^ 12 % 16 = y / 16 ^ 12 % 16 :=
    hexLowerChar_inj _ (Nat.mod_lt _ (by omega)) _ (Nat.mod_lt _ (by omega)) e12
  have d11 : x / 16 ^ 11 % 16 = y / 16 ^ 11 % 16 :=
    hexLowerChar_inj _ (Nat.mod_lt _ (by omega)) _ (Nat.mod_lt _ (by omega)) e11
  have d10 : x / 16 ^ 10 % 16 = y / 16 ^ 10 % 16 :=
    hexLowerChar_inj _ (Nat.mod_lt _ (by omega)) _ (Nat.mod_lt _ (by omega)) e10
  have d9 : x / 16 ^ 9 % 16 = y / 16 ^ 9 % 16 :=
    hexLowerChar_inj _ (Nat.mod_lt _ (by omega)) _ (Nat.mod_lt _ (by omega)) e9
  have d8 : x / 16 ^ 8 % 16 = y / 16 ^ 8 % 16 :=
    hexLowerChar_inj _ (Nat.mod_lt _ (by omega)) _ (Nat.mod_lt _ (by omega)) e8
  have d7 : x / 16 ^ 7 % 16 = y / 16 ^ 7 % 16 :=
    hexLowerChar_inj _ (Nat.mod_lt _ (by omega)) _ (Nat.mod_lt _ (by omega)) e7
  have d6 : x / 16 ^ 6 % 16 = y / 16 ^ 6 % 16 :=
    hexLowerChar_inj _ (Nat.mod_lt _ (by omega)) _ (Nat.mod_lt _ (by omega)) e6
  have d5 : x / 16 ^ 5 % 16 = y / 16 ^ 5 % 16 :=
    hexLowerChar_inj _ (Nat.mod_lt _ (by omega)) _ (Nat.mod_lt _ (by omega)) e5
  have d4 : x / 16 ^ 4 % 16 = y / 16 ^ 4 % 16 :=
    hexLowerChar_inj _ (Nat.mod_lt _ (by omega)) _ (Nat.mod_lt _ (by omega)) e4
  have d3 : x / 16 ^ 3 % 16 = y / 16 ^ 3 % 16 :=
    hexLowerChar_inj _ (Nat.mod_lt _ (by omega)) _ (Nat.mod_lt _ (by omega)) e3
  have d2 : x / 16 ^ 2 % 16 = y / 16 ^ 2 % 16 :=
    hexLowerChar_inj _ (Nat.mod_lt _ (by omega)) _ (Nat.mod_lt _ (by omega)) e2
  have d1 : x / 16 ^ 1 % 16 = y / 16 ^ 1 % 16 :=
    hexLowerChar_inj _ (Nat.mod_lt _ (by omega)) _ (Nat.mod_lt _ (by omega)) e1
  have d0 : x / 16 ^ 0 % 16 = y / 16 ^ 0 % 16 :=
    hexLowerChar_inj _ (Nat.mod_lt _ (by omega)) _ (Nat.mod_lt _ (by omega)) e0
  apply digits16_ext 32 x y hx hy
  intro j hj
  interval_cases j <;> assumption


theorem uuid4Int_lt (r : List Nat) (hlen : r.length = 16) (hlt : ∀ b ∈ r, b < 256) :
    uuid4Int r < 16 ^ 32 := by
  have h1 : os2ip r < 256 ^ 16 := by
    rw [← hlen]
    exact os2ip_lt r hlt
  rw [uuid4Int, setVariantRFC, setVersion4]
  have e0 : (256 : Nat) ^ 16 = 340282366920938463463374607431768211456 := by norm_num
  have e1 : (2 : Nat) ^ 80 = 1208925819614629174706176 := by norm_num
  have e2 : (2 : Nat) ^ 76 = 75557863725914323419136 := by norm_num
  have e3 : (2 : Nat) ^ 64 = 18446744073709551616 := by norm_num
  have e4 : (2 : Nat) ^ 63 = 9223372036854775808 := by norm_num
  have e5 : (2 : Nat) ^ 62 = 4611686018427387904 := by norm_num
  have e6 : (16 : Nat) ^ 32 = 340282366920938463463374607431768211456 := by norm_num
  rw [e0] at h1
  rw [e1, e2, e3, e4, e5, e6]
  omega

theorem uuid4FromBytes_inj (r1 r2 : List Nat)
    (h1 : r1.length = 16) (hlt1 : ∀ b ∈ r1, b < 256)
    (h2 : r2.length = 16) (hlt2 : ∀ b ∈ r2, b < 256)
    (hne : uuid4Int r1 ≠ uuid4Int r2) : uuid4FromBytes r1 ≠ uuid4FromBytes r2 := by
  intro hstr
  exact hne (uuidCanonical_inj _ _ (uuid4Int_lt r1 h1 hlt1) (uuid4Int_lt r2 h2 hlt2) hstr)

/-! ## Lemmas: the envelope builder -/

theorem generate_entity_secret_eq (publicKey : RSAPublicKey) (hx : String)
    (secret seed : List Nat) (hdec : hexDecode hx = some secret)
    (hlen : secret.length = 32) (hk : 98 ≤ modBytes publicKey.n) :
    generate_entity_secret publicKey hx seed =
      .ok (specEntitySecretCiphertext publicKey seed secret) := by
  simp only [generate_entity_secret, hdec]
  rw [if_neg (by omega)]
  rw [pkcs1OaepEncrypt_eq _ _ _ _ hk hlen]
  rfl

theorem generate_entity_secret_length_err (publicKey : RSAPublicKey) (hx : String)
    (secret seed : List Nat) (hdec : hexDecode hx = some secret)
    (hlen : secret.length ≠ 32) :
    generate_entity_secret publicKey hx seed =
      .error (.valueError "Invalid entity secret length. Expected 32 bytes.") := by
  simp only [generate_entity_secret, hdec]
  rw [if_pos hlen]

theorem oaepEM_os2ip_lt (hash : List Nat → List Nat)
    (h32 : ∀ x, (hash x).length = 32) (hlt : ∀ x, ∀ b ∈ hash x, b < 256)
    (k : Nat) (seed msg : List Nat) (hk : 98 ≤ k) (hs : seed.length = 32)
    (hslt : ∀ b ∈ seed, b < 256) (hm : msg.length = 32) (hmlt : ∀ b ∈ msg, b < 256) :
    os2ip (oaepEM hash k seed msg) < 256 ^ (k - 1) := by
  obtain ⟨hemlen, hemlt⟩ := oaepEM_bytes hash h32 hlt k seed msg hk hs hslt hm hmlt
  rw [oaepEM_decomp] at hemlen hemlt ⊢
  generalize hT : bxor seed (mgf1 hash (bxor
      (hash [] ++ List.replicate (k - msg.length - 2 * 32 - 2) 0 ++ [1] ++ msg)
      (mgf1 hash seed (k - 32 - 1))) 32) ++
    bxor (hash [] ++ List.replicate (k - msg.length - 2 * 32 - 2) 0 ++ [1] ++ msg)
      (mgf1 hash seed (k - 32 - 1)) = T at hemlen hemlt ⊢
  rw [os2ip_zero_cons]
  rw [List.length_cons] at hemlen
  have hTlen : T.length = k - 1 := by omega
  calc os2ip T < 256 ^ T.length := os2ip_lt T (fun b hb => hemlt b (List.mem_cons_of_mem _ hb))
  _ = 256 ^ (k - 1) := by rw [hTlen]

theorem oaepEM_inj_seed (hash : List Nat → List Nat) (h32 : ∀ x, (hash x).length = 32)
    (k : Nat) (seed1 seed2 msg : List Nat)
    (hs1 : seed1.length = 32) (hs2 : seed2.length = 32)
    (heq : oaepEM hash k seed1 msg = oaepEM hash k seed2 msg) : seed1 = seed2 := by
  rw [oaepEM_decomp, oaepEM_decomp] at heq
  generalize hDB : (hash [] ++ List.replicate (k - msg.length - 2 * 32 - 2) 0 ++ [1] ++ msg) = DB at heq
  have htail := (List.cons.inj heq).2
  have hB1 : (bxor seed1 (mgf1 hash (bxor DB (mgf1 hash seed1 (k - 32 - 1))) 32)).length = 32 := by
    rw [length_bxor, hs1, length_mgf1 hash h32 _ 32]
    omega
  have hB2 : (bxor seed2 (mgf1 hash (bxor DB (mgf1 hash seed2 (k - 32 - 1))) 32)).length = 32 := by
    rw [length_bxor, hs2, length_mgf1 hash h32 _ 32]
    omega
  obtain ⟨hms, hmdb⟩ := List.append_inj htail (by rw [hB1, hB2])
  rw [hmdb] at hms
  have hMlen : (mgf1 hash (bxor DB (mgf1 hash seed2 (k - 32 - 1))) 32).length = 32 :=
    length_mgf1 hash h32 _ 32
  have hcancel : ∀ s : List Nat, s.length = 32 →
      bxor (bxor s (mgf1 hash (bxor DB (mgf1 hash seed2 (k - 32 - 1))) 32))
        (mgf1 hash (bxor DB (mgf1 hash seed2 (k - 32 - 1))) 32) = s := by
    intro s hsl
    exact bxor_bxor_cancel s _ (by rw [hMlen]; omega)
  have hc1 := hcancel seed1 hs1
  have hc2 := hcancel seed2 hs2
  rw [hms] at hc1
  rw [hc2] at hc1
  exact hc1.symm

theorem generate_entity_secret_inj_seed (p q e d : Nat)
    (hp : p.Prime) (hq : q.Prime) (hne : p ≠ q)
    (hed : e * d ≡ 1 [MOD (p - 1) * (q - 1)]) (hk : 98 ≤ modBytes (p * q))
    (hx : String) (secret : List Nat) (hdec : hexDecode hx = some secret)
    (hlen : secret.length = 32)
    (seed1 seed2 : List Nat) (hs1 : seed1.length = 32) (hs1b : ∀ b ∈ seed1, b < 256)
    (hs2 : seed2.length = 32) (hs2b : ∀ b ∈ seed2, b < 256) (hsne : seed1 ≠ seed2) :
    generate_entity_secret ⟨p * q, e⟩ hx seed1 ≠ generate_entity_secret ⟨p * q, e⟩ hx seed2 := by
  have hseclt : ∀ b ∈ secret, b < 256 := hexDecodeList_mem_lt hx.data secret hdec
  have hn4 : 4 ≤ p * q := by
    calc 4 = 2 * 2 := rfl
    _ ≤ p * q := Nat.mul_le_mul hp.two_le hq.two_le
  obtain ⟨hb1, hb2⟩ := modBytes_bounds (p * q) (by omega)
  rw [generate_entity_secret_eq _ _ _ _ hdec hlen hk,
    generate_entity_secret_eq _ _ _ _ hdec hlen hk]
  intro h
  have hctEq := Except.ok.inj h
  rw [specEntitySecretCiphertext, specEntitySecretCiphertext] at hctEq
  have hb := b64encode_injOn _ _ (i2osp_mem_lt _ _) (i2osp_mem_lt _ _) hctEq
  have hX1 : os2ip (oaepEM sha256 (modBytes (p * q)) seed1 secret) < p * q :=
    lt_of_lt_of_le (oaepEM_os2ip_lt sha256 sha256_length sha256_mem_lt _ seed1 secret hk hs1 hs1b hlen hseclt) hb1
  have hX2 : os2ip (oaepEM sha256 (modBytes (p * q)) seed2 secret) < p * q :=
    lt_of_lt_of_le (oaepEM_os2ip_lt sha256 sha256_length sha256_mem_lt _ seed2 secret hk hs2 hs2b hlen hseclt) hb1
  have hc1lt : powMod (os2ip (oaepEM sha256 (modBytes (p * q)) seed1 secret)) e (p * q) <
      256 ^ modBytes (p * q) := by
    rw [powMod_eq]
    exact lt_trans (Nat.mod_lt _ (by omega)) hb2
  have hc2lt : powMod (os2ip (oaepEM sha256 (modBytes (p * q)) seed2 secret)) e (p * q) <
      256 ^ modBytes (p * q) := by
    rw [powMod_eq]
    exact lt_trans (Nat.mod_lt _ (by omega)) hb2
  have hc : powMod (os2ip (oaepEM sha256 (modBytes (p * q)) seed1 secret)) e (p * q) =
      powMod (os2ip (oaepEM sha256 (modBytes (p * q)) seed2 secret)) e (p * q) := by
    have h1 := congrArg os2ip hb
    rw [os2ip_i2osp, os2ip_i2osp, Nat.mod_eq_of_lt hc1lt, Nat.mod_eq_of_lt hc2lt] at h1
    exact h1
  have hXeq : os2ip (oaepEM sha256 (modBytes (p * q)) seed1 secret) =
      os2ip (oaepEM sha256 (modBytes (p * q)) seed2 secret) := by
    have h1 := congrArg (fun c => powMod c d (p * q)) hc
    dsimp only at h1
    rwa [rsa_decrypt_encrypt p q e d _ hp hq hne hed hX1,
      rsa_decrypt_encrypt p q e d _ hp hq hne hed hX2] at h1
  have hemEq : oaepEM sha256 (modBytes (p * q)) seed1 secret =
      oaepEM sha256 (modBytes (p * q)) seed2 secret := by
    obtain ⟨hl1, hm1⟩ := oaepEM_bytes sha256 sha256_length sha256_mem_lt _ seed1 secret hk hs1 hs1b hlen hseclt
    obtain ⟨hl2, hm2⟩ := oaepEM_bytes sha256 sha256_length sha256_mem_lt _ seed2 secret hk hs2 hs2b hlen hseclt
    have g1 := i2osp_os2ip _ hm1
    have g2 := i2osp_os2ip _ hm2
    rw [hl1] at g1
    rw [hl2] at g2
    rw [← g1, ← g2, hXeq]
  exact hsne (oaepEM_inj_seed sha256 sha256_length (modBytes (p * q)) seed1 seed2 secret hs1 hs2 hemEq)

/-! ## Lemmas: profile responses -/

theorem findUser_map_setPw (db : List UserRow) (email : String) (f : UserRow → String) :
    findUserByEmail (db.map (setPw f)) email = (findUserByEmail db email).map (setPw f) := by
  rw [findUserByEmail, findUserByEmail, List.find?_map]
  congr 1

theorem userProfileDict_setPw (f : UserRow → String) (u : UserRow) :
    userProfileDict (setPw f u) = userProfileDict u := rfl

theorem userProfileDict_keys (u : UserRow) :
    (userProfileDict u).map Prod.fst =
      ["id", "email", "full_name", "occupation", "company", "skills", "country",
       "city", "linkedin_url", "verified", "wallet_id", "wallet_address"] := rfl

/-! ## The claims -/

/-- C1: for every configured entity secret (hex string that decodes to
`secret`) under a provider key of realistic size, the envelope builder
raises the configuration `ValueError` if and only if the decoded secret is
not exactly 32 bytes; when it is exactly 32 bytes no error of any kind is
raised. -/
theorem claim_C1 (publicKey : RSAPublicKey) (hx : String) (secret seed : List Nat)
    (hdec : hexDecode hx = some secret) (hk : 98 ≤ modBytes publicKey.n) :
    ((generate_entity_secret publicKey hx seed =
        .error (.valueError "Invalid entity secret length. Expected 32 bytes.")) ↔
      secret.length ≠ 32) ∧
    ((∃ err, generate_entity_secret publicKey hx seed = .error err) ↔
      secret.length ≠ 32) := by
  constructor
  · constructor
    · intro h
      by_contra hlen
      have hl : secret.length = 32 := by omega
      rw [generate_entity_secret_eq _ _ _ _ hdec hl hk] at h
      exact absurd h (by simp)
    · intro hlen
      exact generate_entity_secret_length_err _ _ _ _ hdec hlen
  · constructor
    · rintro ⟨err, h⟩
      by_contra hlen
      have hl : secret.length = 32 := by omega
      rw [generate_entity_secret_eq _ _ _ _ hdec hl hk] at h
      exact absurd h (by simp)
    · intro hlen
      exact ⟨_, generate_entity_secret_length_err _ _ _ _ hdec hlen⟩

/-- Witness for C1 at a concrete 98-byte modulus, a 31-byte secret (error
raised) packaged through the iff at a decodable input. -/
theorem claim_C1_witness :
    hexDecode "0707070707070707070707070707070707070707070707070707070707070707" =
      some (List.replicate 32 7) ∧
    98 ≤ modBytes (2 ^ 776) ∧
    (((generate_entity_secret ⟨2 ^ 776, 1⟩
        "0707070707070707070707070707070707070707070707070707070707070707"
        (List.replicate 32 170) =
          .error (.valueError "Invalid entity secret length. Expected 32 bytes.")) ↔
        (List.replicate 32 7).length ≠ 32) ∧
      ((∃ err, generate_entity_secret ⟨2 ^ 776, 1⟩
        "0707070707070707070707070707070707070707070707070707070707070707"
        (List.replicate 32 170) = .error err) ↔ (List.replicate 32 7).length ≠ 32)) := by
  have hk : 98 ≤ modBytes (2 ^ 776) := by
    have h := modBytes_eq (2 ^ 776) 98 (by norm_num) (by norm_num) (by norm_num)
    omega
  exact ⟨by decide, hk, claim_C1 ⟨2 ^ 776, 1⟩ _ (List.replicate 32 7) (List.replicate 32 170)
    (by decide) hk⟩

/-- C2: for every 32-byte secret and provider key, the envelope builder
returns exactly the base64 encoding of the RSA-OAEP encryption of the
secret under that key, with the OAEP hash and the mask-generation function
both instantiated with SHA-256 (the spec-side `specEntitySecretCiphertext`). -/
theorem claim_C2 (publicKey : RSAPublicKey) (hx : String) (secret seed : List Nat)
    (hdec : hexDecode hx = some secret) (hlen : secret.length = 32)
    (hk : 98 ≤ modBytes publicKey.n) :
    generate_entity_secret publicKey hx seed =
      .ok (specEntitySecretCiphertext publicKey seed secret) :=
  generate_entity_secret_eq publicKey hx secret seed hdec hlen hk

/-- Witness for C2 at a concrete key and secret. -/
theorem claim_C2_witness :
    hexDecode "000102030405060708090a0b0c0d0e0f101112131415161718191a1b1c1d1e1f" =
      some (List.range 32) ∧
    (List.range 32).length = 32 ∧
    98 ≤ modBytes (2 ^ 776) ∧
    generate_entity_secret ⟨2 ^ 776, 1⟩
      "000102030405060708090a0b0c0d0e0f101112131415161718191a1b1c1d1e1f"
      (List.replicate 32 170) =
      .ok (specEntitySecretCiphertext ⟨2 ^ 776, 1⟩ (List.replicate 32 170) (List.range 32)) := by
  have hk : 98 ≤ modBytes (2 ^ 776) := by
    have h := modBytes_eq (2 ^ 776) 98 (by norm_num) (by norm_num) (by norm_num)
    omega
  exact ⟨by decide, by decide, hk, claim_C2 ⟨2 ^ 776, 1⟩ _ (List.range 32)
    (List.replicate 32 170) (by decide) (by decide) hk⟩

/-- C3: for a fixed 32-byte secret and an RSA key pair (distinct primes,
`e*d ≡ 1` modulo `(p-1)(q-1)`, realistic modulus size), decrypting the
base64-decoded ciphertext produced by `generate_entity_secret` with the
private key under OAEP-SHA256 yields back exactly the original 32 secret
bytes. -/
theorem claim_C3 (p q e d : Nat) (hx : String) (secret seed : List Nat)
    (hp : p.Prime) (hq : q.Prime) (hne : p ≠ q)
    (hed : e * d ≡ 1 [MOD (p - 1) * (q - 1)]) (hk : 98 ≤ modBytes (p * q))
    (hdec : hexDecode hx = some secret) (hlen : secret.length = 32)
    (hs : seed.length = 32) (hslt : ∀ b ∈ seed, b < 256)
    (ct : String) (hct : generate_entity_secret ⟨p * q, e⟩ hx seed = .ok ct) :
    (b64decode ct).bind (pkcs1OaepDecrypt sha256 ⟨p * q, d⟩) = some secret := by
  have hseclt := hexDecodeList_mem_lt hx.data secret hdec
  rw [generate_entity_secret_eq _ _ _ _ hdec hlen hk] at hct
  have hcteq : ct = specEntitySecretCiphertext ⟨p * q, e⟩ seed secret :=
    (Except.ok.inj hct).symm
  rw [hcteq, specEntitySecretCiphertext]
  rw [b64decode_b64encode _ (i2osp_mem_lt _ _), Option.some_bind]
  exact oaep_roundtrip sha256 sha256_length sha256_mem_lt p q e d hp hq hne hed hk
    seed secret hs hslt hlen hseclt _
    (pkcs1OaepEncrypt_eq sha256 ⟨p * q, e⟩ seed secret hk hlen)

/-- Witness for C3: the RSA key pair built from the Mersenne primes
`2^521 - 1` and `2^607 - 1` with `e = 65537`, a concrete 32-byte secret
and OAEP seed. -/
theorem claim_C3_witness :
    (mersenne 521).Prime ∧ (mersenne 607).Prime ∧ mersenne 521 ≠ mersenne 607 ∧
    65537 * 605309440029444797632079365922351903778944636504290628815687804447518401725202045830587428993072200378798732205389608178468869002370652053408838463061590768976059755211666722868590174546762165023955171158423681809701058604934000382033836393559131564093520170601086332978178762009136501271874027235396379522707933355224417396404416034089473 ≡ 1
      [MOD (mersenne 521 - 1) * (mersenne 607 - 1)] ∧
    98 ≤ modBytes (mersenne 521 * mersenne 607) ∧
    hexDecode "000102030405060708090a0b0c0d0e0f101112131415161718191a1b1c1d1e1f" =
      some (List.range 32) ∧
    (List.range 32).length = 32 ∧ (List.replicate 32 170).length = 32 ∧
    (∀ b ∈ List.replicate 32 170, b < 256) ∧
    ∃ ct, generate_entity_secret ⟨mersenne 521 * mersenne 607, 65537⟩
        "000102030405060708090a0b0c0d0e0f101112131415161718191a1b1c1d1e1f"
        (List.replicate 32 170) = .ok ct ∧
      (b64decode ct).bind (pkcs1OaepDecrypt sha256
        ⟨mersenne 521 * mersenne 607,
         605309440029444797632079365922351903778944636504290628815687804447518401725202045830587428993072200378798732205389608178468869002370652053408838463061590768976059755211666722868590174546762165023955171158423681809701058604934000382033836393559131564093520170601086332978178762009136501271874027235396379522707933355224417396404416034089473⟩) =
        some (List.range 32) := by
  have hp : (mersenne 521).Prime := lucas_lehmer_sufficiency _ (by norm_num) (by norm_num)
  have hq : (mersenne 607).Prime := lucas_lehmer_sufficiency _ (by norm_num) (by norm_num)
  have hne : mersenne 521 ≠ mersenne 607 := by decide
  have hed : 65537 * 605309440029444797632079365922351903778944636504290628815687804447518401725202045830587428993072200378798732205389608178468869002370652053408838463061590768976059755211666722868590174546762165023955171158423681809701058604934000382033836393559131564093520170601086332978178762009136501271874027235396379522707933355224417396404416034089473 ≡ 1
      [MOD (mersenne 521 - 1) * (mersenne 607 - 1)] := by decide
  have hk : 98 ≤ modBytes (mersenne 521 * mersenne 607) := by
    have h := modBytes_eq (mersenne 521 * mersenne 607) 141 (by decide) (by decide) (by omega)
    omega
  have hdec : hexDecode "000102030405060708090a0b0c0d0e0f101112131415161718191a1b1c1d1e1f" =
      some (List.range 32) := by decide
  have hct := generate_entity_secret_eq ⟨mersenne 521 * mersenne 607, 65537⟩
    "000102030405060708090a0b0c0d0e0f101112131415161718191a1b1c1d1e1f"
    (List.range 32) (List.replicate 32 170) hdec (by decide) hk
  exact ⟨hp, hq, hne, hed, hk, hdec, by decide, by decide, by decide,
    specEntitySecretCiphertext ⟨mersenne 521 * mersenne 607, 65537⟩
      (List.replicate 32 170) (List.range 32), hct,
    claim_C3 (mersenne 521) (mersenne 607) 65537 _ _ (List.range 32)
      (List.replicate 32 170) hp hq hne hed hk hdec (by decide) (by decide) (by decide)
      _ hct⟩

/-- C4: two successive envelope builds with identical configuration but
distinct fresh randomness (distinct OAEP seeds; UUID random bytes that
differ outside the forced version/variant bits, i.e. with distinct
`uuid4Int`) produce different ciphertext strings and different idempotency
keys. -/
theorem claim_C4 (p q e d : Nat) (hx : String) (secret : List Nat)
    (hp : p.Prime) (hq : q.Prime) (hne : p ≠ q)
    (hed : e * d ≡ 1 [MOD (p - 1) * (q - 1)]) (hk : 98 ≤ modBytes (p * q))
    (hdec : hexDecode hx = some secret) (hlen : secret.length = 32)
    (seed1 seed2 : List Nat) (hs1 : seed1.length = 32) (hs1b : ∀ b ∈ seed1, b < 256)
    (hs2 : seed2.length = 32) (hs2b : ∀ b ∈ seed2, b < 256) (hsne : seed1 ≠ seed2)
    (r1 r2 : List Nat) (hr1 : r1.length = 16) (hr1b : ∀ b ∈ r1, b < 256)
    (hr2 : r2.length = 16) (hr2b : ∀ b ∈ r2, b < 256)
    (hrne : uuid4Int r1 ≠ uuid4Int r2) :
    generate_entity_secret ⟨p * q, e⟩ hx seed1 ≠ generate_entity_secret ⟨p * q, e⟩ hx seed2 ∧
    uuid4FromBytes r1 ≠ uuid4FromBytes r2 :=
  ⟨generate_entity_secret_inj_seed p q e d hp hq hne hed hk hx secret hdec hlen
      seed1 seed2 hs1 hs1b hs2 hs2b hsne,
   uuid4FromBytes_inj r1 r2 hr1 hr1b hr2 hr2b hrne⟩

/-- Witness for C4 at the Mersenne key pair with two concrete seeds and
two concrete UUID byte draws. -/
theorem claim_C4_witness :
    (mersenne 521).Prime ∧ (mersenne 607).Prime ∧ mersenne 521 ≠ mersenne 607 ∧
    65537 * 605309440029444797632079365922351903778944636504290628815687804447518401725202045830587428993072200378798732205389608178468869002370652053408838463061590768976059755211666722868590174546762165023955171158423681809701058604934000382033836393559131564093520170601086332978178762009136501271874027235396379522707933355224417396404416034089473 ≡ 1
      [MOD (mersenne 521 - 1) * (mersenne 607 - 1)] ∧
    98 ≤ modBytes (mersenne 521 * mersenne 607) ∧
    List.replicate 32 1 ≠ List.replicate 32 2 ∧
    uuid4Int (List.replicate 16 0) ≠ uuid4Int (List.replicate 16 255) ∧
    (generate_entity_secret ⟨mersenne 521 * mersenne 607, 65537⟩
        "000102030405060708090a0b0c0d0e0f101112131415161718191a1b1c1d1e1f"
        (List.replicate 32 1) ≠
      generate_entity_secret ⟨mersenne 521 * mersenne 607, 65537⟩
        "000102030405060708090a0b0c0d0e0f101112131415161718191a1b1c1d1e1f"
        (List.replicate 32 2) ∧
      uuid4FromBytes (List.replicate 16 0) ≠ uuid4FromBytes (List.replicate 16 255)) := by
  have hp : (mersenne 521).Prime := lucas_lehmer_sufficiency _ (by norm_num) (by norm_num)
  have hq : (mersenne 607).Prime := lucas_lehmer_sufficiency _ (by norm_num) (by norm_num)
  have hne : mersenne 521 ≠ mersenne 607 := by decide
  have hed : 65537 * 605309440029444797632079365922351903778944636504290628815687804447518401725202045830587428993072200378798732205389608178468869002370652053408838463061590768976059755211666722868590174546762165023955171158423681809701058604934000382033836393559131564093520170601086332978178762009136501271874027235396379522707933355224417396404416034089473 ≡ 1
      [MOD (mersenne 521 - 1) * (mersenne 607 - 1)] := by decide
  have hk : 98 ≤ modBytes (mersenne 521 * mersenne 607) := by
    have h := modBytes_eq (mersenne 521 * mersenne 607) 141 (by decide) (by decide) (by omega)
    omega
  exact ⟨hp, hq, hne, hed, hk, by decide, by decide,
    claim_C4 (mersenne 521) (mersenne 607) 65537 _ _ (List.range 32) hp hq hne hed hk
      (by decide) (by decide) (List.replicate 32 1) (List.replicate 32 2)
      (by decide) (by decide) (by decide) (by decide) (by decide)
      (List.replicate 16 0) (List.replicate 16 255)
      (by decide) (by decide) (by decide) (by decide) (by decide)⟩

/-- C5: every idempotency key generated for an outbound mutating request is
`str(uuid.uuid4())` of the fresh random bytes, and it always matches the
canonical hyphenated 8-4-4-4-12 lowercase-hex format with version nibble 4;
both the transfer payload and the wallet-creation payload carry exactly
that string under the key `"idempotencyKey"`. -/
theorem claim_C5 (r : List Nat) (entitySecretCipherText amount destination_address
    from_wallet_id name ref_id entitySecretCiphertext walletSetId : String) :
    isUuid4String (uuid4FromBytes r) = true ∧
    jsonLookup (create_transfer_payload (uuid4FromBytes r) entitySecretCipherText
      amount destination_address from_wallet_id) "idempotencyKey" =
      some (.jstr (uuid4FromBytes r)) ∧
    jsonLookup (create_wallet_payload name ref_id entitySecretCiphertext
      (uuid4FromBytes r) walletSetId) "idempotencyKey" =
      some (.jstr (uuid4FromBytes r)) := by
  refine ⟨?_, rfl, rfl⟩
  rw [uuid4FromBytes]
  exact uuidCanonical_isUuid4 _ (uuid4Int_nibble r)

/-- C6: when the configured entity secret does not decode to exactly 32
bytes, both privileged wallet operations fail with the configuration
`ValueError` and their outbound-call trace is empty: the failure strictly
precedes any network call. -/
theorem claim_C6 (from_wallet_id amount destination_address email name ref_id : String)
    (publicKey : RSAPublicKey) (hx : String) (secret seed r : List Nat)
    (apiKey : String) (sdk : String → Except PyError String)
    (net : HRequest → HResponse)
    (hdec : hexDecode hx = some secret) (hlen : secret.length ≠ 32) :
    create_transfer from_wallet_id amount destination_address publicKey hx seed r apiKey net =
      (.error (.valueError "Invalid entity secret length. Expected 32 bytes."), []) ∧
    create_wallet email name ref_id publicKey hx seed r apiKey sdk net =
      (.error (.valueError "Invalid entity secret length. Expected 32 bytes."), []) := by
  have herr := generate_entity_secret_length_err publicKey hx secret seed hdec hlen
  constructor
  · rw [create_transfer, herr]
  · rw [create_wallet, herr]

/-- Witness for C6 at a one-byte secret. -/
theorem claim_C6_witness :
    hexDecode "ab" = some [171] ∧ [171].length ≠ 32 ∧
    (create_transfer "w" "10" "0xdst" ⟨2 ^ 776, 1⟩ "ab" (List.replicate 32 170)
        (List.replicate 16 9) "key" (fun _ => ⟨200, none⟩) =
      (.error (.valueError "Invalid entity secret length. Expected 32 bytes."), []) ∧
    create_wallet "e@x" "n" "r" ⟨2 ^ 776, 1⟩ "ab" (List.replicate 32 170)
        (List.replicate 16 9) "key" (fun _ => .ok "ws") (fun _ => ⟨200, none⟩) =
      (.error (.valueError "Invalid entity secret length. Expected 32 bytes."), [])) :=
  ⟨by decide, by decide,
   claim_C6 "w" "10" "0xdst" "e@x" "n" "r" ⟨2 ^ 776, 1⟩ "ab" [171]
     (List.replicate 32 170) (List.replicate 16 9) "key" (fun _ => .ok "ws")
     (fun _ => ⟨200, none⟩) (by decide) (by decide)⟩

/-- C7 counterexample: the transfer request body, as built by the code,
has no field named `entitySecretCiphertext` and no field named `amount`
(it uses `entitySecretCipherText` and `amounts`), so its field set is not
the one the claim lists. -/
theorem claim_C7_counterexample :
    jsonLookup (create_transfer_payload "ik" "ct" "10" "0xdst" "wid")
      "entitySecretCiphertext" = none ∧
    jsonLookup (create_transfer_payload "ik" "ct" "10" "0xdst" "wid") "amount" = none ∧
    "entitySecretCipherText" ∈
      (create_transfer_payload "ik" "ct" "10" "0xdst" "wid").map Prod.fst ∧
    "entitySecretCipherText" ∉ specTransferFields ∧
    "amounts" ∈ (create_transfer_payload "ik" "ct" "10" "0xdst" "wid").map Prod.fst ∧
    "amounts" ∉ specTransferFields ∧
    (create_transfer_payload "ik" "ct" "10" "0xdst" "wid").map Prod.fst ≠
      specTransferFields :=
  ⟨rfl, rfl, by decide, by decide, by decide, by decide, by decide⟩

/-- C7 (amended): the transfer request body contains exactly the fields
`{idempotencyKey, entitySecretCipherText, amounts, destinationAddress,
feeLevel, tokenId, walletId}`, with `entitySecretCipherText` bound to the
freshly built ciphertext, `idempotencyKey` to the fresh UUID, `walletId`
to the given source wallet, `destinationAddress` to the given address, and
`amounts` to the one-element list holding the given amount; the outbound
request of `create_transfer` carries exactly this body. -/
theorem claim_C7 (ik ct amount dst wid : String) (publicKey : RSAPublicKey)
    (hexSecret : String) (oaepSeed uuidRandom : List Nat) (apiKey : String)
    (net : HRequest → HResponse) :
    (create_transfer_payload ik ct amount dst wid).map Prod.fst =
      ["idempotencyKey", "entitySecretCipherText", "amounts", "destinationAddress",
       "feeLevel", "tokenId", "walletId"] ∧
    jsonLookup (create_transfer_payload ik ct amount dst wid) "entitySecretCipherText" =
      some (.jstr ct) ∧
    jsonLookup (create_transfer_payload ik ct amount dst wid) "idempotencyKey" =
      some (.jstr ik) ∧
    jsonLookup (create_transfer_payload ik ct amount dst wid) "walletId" =
      some (.jstr wid) ∧
    jsonLookup (create_transfer_payload ik ct amount dst wid) "destinationAddress" =
      some (.jstr dst) ∧
    jsonLookup (create_transfer_payload ik ct amount dst wid) "amounts" =
      some (.jarr [.jstr amount]) ∧
    jsonLookup (create_transfer_payload ik ct amount dst wid) "tokenId" =
      some (.jstr "5797fbd6-3795-519d-84ca-ec4c5f80c3b1") ∧
    jsonLookup (create_transfer_payload ik ct amount dst wid) "feeLevel" =
      some (.jstr "HIGH") ∧
    (create_transfer wid amount dst publicKey hexSecret oaepSeed uuidRandom apiKey net).2 =
      (match generate_entity_secret publicKey hexSecret oaepSeed with
       | .error _ => []
       | .ok esct => [.http
          { method := "POST"
            url := "https://api.circle.com/v1/w3s/developer/transactions/transfer"
            headers := [("Content-Type", "application/json"),
                        ("Authorization", "Bearer " ++ apiKey)]
            body := .jobj (create_transfer_payload (uuid4FromBytes uuidRandom) esct
              amount dst wid) }]) := by
  refine ⟨rfl, rfl, rfl, rfl, rfl, rfl, rfl, rfl, ?_⟩
  rw [create_transfer]
  cases generate_entity_secret publicKey hexSecret oaepSeed <;> rfl

/-- On a provider response whose JSON body is an object without a `data`
key, `create_wallet` catches the parsing failure and returns `None` after
its two outbound calls. -/
theorem create_wallet_swallows_failure (email name rid : String)
    (publicKey : RSAPublicKey) (hx : String) (secret seed r : List Nat)
    (apiKey : String) (sdk : String → Except PyError String) (wsid : String)
    (resp : HResponse) (fields : List (String × JVal))
    (hdec : hexDecode hx = some secret) (hlen : secret.length = 32)
    (hk : 98 ≤ modBytes publicKey.n) (hapi : ¬ apiKey = "")
    (hsdk : sdk email = .ok wsid)
    (hbody : resp.body = some (.jobj fields))
    (hnodata : jsonLookup fields "data" = none) :
    (create_wallet email name rid publicKey hx seed r apiKey sdk (fun _ => resp)).1 =
      .ok none ∧
    (create_wallet email name rid publicKey hx seed r apiKey sdk (fun _ => resp)).2.length = 2 := by
  have hct := generate_entity_secret_eq publicKey hx secret seed hdec hlen hk
  rw [create_wallet, hct]
  simp only [if_neg hapi, hsdk, hbody, pyGetD, hnodata, Option.getD_none]
  constructor <;> rfl

/-- On the same kind of failure response, `create_transfer` ends in an
`AttributeError` (from `None.get('id')`) after its single outbound call. -/
theorem create_transfer_attribute_error (wid amount dst : String)
    (publicKey : RSAPublicKey) (hx : String) (secret seed r : List Nat)
    (apiKey : String) (resp : HResponse) (fields : List (String × JVal))
    (hdec : hexDecode hx = some secret) (hlen : secret.length = 32)
    (hk : 98 ≤ modBytes publicKey.n)
    (hbody : resp.body = some (.jobj fields))
    (hnodata : jsonLookup fields "data" = none) :
    (create_transfer wid amount dst publicKey hx seed r apiKey (fun _ => resp)).1 =
      .error .attributeError ∧
    (create_transfer wid amount dst publicKey hx seed r apiKey (fun _ => resp)).2.length = 1 := by
  have hct := generate_entity_secret_eq publicKey hx secret seed hdec hlen hk
  rw [create_transfer, hct]
  simp only [hbody, pyGet, hnodata, Option.getD_none]
  constructor <;> rfl

/-- C8 counterexample: on a non-2xx provider response, `create_wallet`
returns the default value `None` with no exception — two different
provider failures (401 vs 500, with different details) produce the
identical caller-visible outcome, so neither status nor detail is relayed
— and `create_transfer` raises an `AttributeError` from parsing the error
body instead of relaying the provider's status/detail. -/
theorem claim_C8_counterexample :
    (create_wallet "e@x" "n" "r" ⟨2 ^ 776, 1⟩
        "000102030405060708090a0b0c0d0e0f101112131415161718191a1b1c1d1e1f"
        (List.replicate 32 170) (List.replicate 16 9) "key" (fun _ => .ok "ws")
        (fun _ => ⟨401, some (.jobj [("code", .jnum 401),
          ("message", .jstr "Malformed authorization.")])⟩)).1 = .ok none ∧
    (create_wallet "e@x" "n" "r" ⟨2 ^ 776, 1⟩
        "000102030405060708090a0b0c0d0e0f101112131415161718191a1b1c1d1e1f"
        (List.replicate 32 170) (List.replicate 16 9) "key" (fun _ => .ok "ws")
        (fun _ => ⟨500, some (.jobj [("code", .jnum 500),
          ("message", .jstr "Internal error.")])⟩)).1 = .ok none ∧
    (create_transfer "w" "10" "0xdst" ⟨2 ^ 776, 1⟩
        "000102030405060708090a0b0c0d0e0f101112131415161718191a1b1c1d1e1f"
        (List.replicate 32 170) (List.replicate 16 9) "key"
        (fun _ => ⟨401, some (.jobj [("code", .jnum 401),
          ("message", .jstr "Malformed authorization.")])⟩)).1 = .error .attributeError := by
  have hk : 98 ≤ modBytes (2 ^ 776) := by
    have h := modBytes_eq (2 ^ 776) 98 (by norm_num) (by norm_num) (by norm_num)
    omega
  refine ⟨?_, ?_, ?_⟩
  · exact (create_wallet_swallows_failure "e@x" "n" "r" ⟨2 ^ 776, 1⟩ _ (List.range 32)
      (List.replicate 32 170) (List.replicate 16 9) "key" _ "ws"
      ⟨401, some (.jobj [("code", .jnum 401), ("message", .jstr "Malformed authorization.")])⟩
      [("code", .jnum 401), ("message", .jstr "Malformed authorization.")]
      (by decide) (by decide) hk (by decide) rfl rfl rfl).1
  · exact (create_wallet_swallows_failure "e@x" "n" "r" ⟨2 ^ 776, 1⟩ _ (List.range 32)
      (List.replicate 32 170) (List.replicate 16 9) "key" _ "ws"
      ⟨500, some (.jobj [("code", .jnum 500), ("message", .jstr "Internal error.")])⟩
      [("code", .jnum 500), ("message", .jstr "Internal error.")]
      (by decide) (by decide) hk (by decide) rfl rfl rfl).1
  · exact (create_transfer_attribute_error "w" "10" "0xdst" ⟨2 ^ 776, 1⟩ _ (List.range 32)
      (List.replicate 32 170) (List.replicate 16 9) "key"
      ⟨401, some (.jobj [("code", .jnum 401), ("message", .jstr "Malformed authorization.")])⟩
      [("code", .jnum 401), ("message", .jstr "Malformed authorization.")]
      (by decide) (by decide) hk rfl rfl).1

/-- C8 (amended): on every provider failure response whose JSON error body
carries no `data` object, neither operation relays the provider's
status/detail and neither retries (exactly one HTTP request each):
`create_transfer` dies with an `AttributeError` while parsing the body,
and `create_wallet` catches everything and silently returns `None`. -/
theorem claim_C8 (wid amount dst email name rid : String) (publicKey : RSAPublicKey)
    (hx : String) (secret seed r : List Nat) (apiKey : String)
    (sdk : String → Except PyError String) (wsid : String) (resp : HResponse)
    (fields : List (String × JVal))
    (hdec : hexDecode hx = some secret) (hlen : secret.length = 32)
    (hk : 98 ≤ modBytes publicKey.n) (hstatus : 300 ≤ resp.status)
    (hbody : resp.body = some (.jobj fields)) (hnodata : jsonLookup fields "data" = none)
    (hapi : ¬ apiKey = "") (hsdk : sdk email = .ok wsid) :
    ((create_transfer wid amount dst publicKey hx seed r apiKey (fun _ => resp)).1 =
        .error .attributeError ∧
      (create_transfer wid amount dst publicKey hx seed r apiKey (fun _ => resp)).2.length = 1) ∧
    ((create_wallet email name rid publicKey hx seed r apiKey sdk (fun _ => resp)).1 =
        .ok none ∧
      (create_wallet email name rid publicKey hx seed r apiKey sdk (fun _ => resp)).2.length = 2) :=
  ⟨create_transfer_attribute_error wid amount dst publicKey hx secret seed r apiKey

      resp fields hdec hlen hk hbody hnodata,
   create_wallet_swallows_failure email name rid publicKey hx secret seed r apiKey sdk
      wsid resp fields hdec hlen hk hapi hsdk hbody hnodata⟩

/-- Witness for C8 at a concrete 401 provider response. -/
theorem claim_C8_witness :
    hexDecode "000102030405060708090a0b0c0d0e0f101112131415161718191a1b1c1d1e1f" =
      some (List.range 32) ∧
    (List.range 32).length = 32 ∧ 98 ≤ modBytes (2 ^ 776) ∧
    300 ≤ (401 : Nat) ∧
    jsonLookup [("code", JVal.jnum 401), ("message", JVal.jstr "Malformed authorization.")]
      "data" = none ∧
    ¬ ("key" : String) = "" ∧
    (((create_transfer "w" "10" "0xdst" ⟨2 ^ 776, 1⟩
        "000102030405060708090a0b0c0d0e0f101112131415161718191a1b1c1d1e1f"
        (List.replicate 32 170) (List.replicate 16 9) "key"
        (fun _ => ⟨401, some (.jobj [("code", .jnum 401),
          ("message", .jstr "Malformed authorization.")])⟩)).1 = .error .attributeError ∧
      (create_transfer "w" "10" "0xdst" ⟨2 ^ 776, 1⟩
        "000102030405060708090a0b0c0d0e0f101112131415161718191a1b1c1d1e1f"
        (List.replicate 32 170) (List.replicate 16 9) "key"
        (fun _ => ⟨401, some (.jobj [("code", .jnum 401),
          ("message", .jstr "Malformed authorization.")])⟩)).2.length = 1) ∧
     ((create_wallet "e@x" "n" "r" ⟨2 ^ 776, 1⟩
        "000102030405060708090a0b0c0d0e0f101112131415161718191a1b1c1d1e1f"
        (List.replicate 32 170) (List.replicate 16 9) "key" (fun _ => .ok "ws")
        (fun _ => ⟨401, some (.jobj [("code", .jnum 401),
          ("message", .jstr "Malformed authorization.")])⟩)).1 = .ok none ∧
      (create_wallet "e@x" "n" "r" ⟨2 ^ 776, 1⟩
        "000102030405060708090a0b0c0d0e0f101112131415161718191a1b1c1d1e1f"
        (List.replicate 32 170) (List.replicate 16 9) "key" (fun _ => .ok "ws")
        (fun _ => ⟨401, some (.jobj [("code", .jnum 401),
          ("message", .jstr "Malformed authorization.")])⟩)).2.length = 2)) := by
  have hk : 98 ≤ modBytes (2 ^ 776) := by
    have h := modBytes_eq (2 ^ 776) 98 (by norm_num) (by norm_num) (by norm_num)
    omega
  exact ⟨by decide, by decide, hk, by decide, rfl, by decide,
    claim_C8 "w" "10" "0xdst" "e@x" "n" "r" ⟨2 ^ 776, 1⟩
      "000102030405060708090a0b0c0d0e0f101112131415161718191a1b1c1d1e1f"
      (List.range 32) (List.replicate 32 170) (List.replicate 16 9) "key"
      (fun _ => .ok "ws") "ws"
      ⟨401, some (.jobj [("code", .jnum 401), ("message", .jstr "Malformed authorization.")])⟩
      [("code", .jnum 401), ("message", .jstr "Malformed authorization.")]
      (by decide) (by decide) hk (by decide) rfl rfl (by decide) rfl⟩

/-- C9 counterexample: when the provider encodes the first token balance's
`amount` as a JSON number, `wallet_balance` returns that number as-is —
not a string — so the claim that it returns a string for every response
fails. -/
theorem claim_C9_counterexample :
    wallet_balance_result (some (.jobj [("data", .jobj [("tokenBalances",
        .jarr [.jobj [("amount", .jnum 7)]])])])) = .jnum 7 ∧
    ∀ s : String, wallet_balance_result (some (.jobj [("data", .jobj [("tokenBalances",
        .jarr [.jobj [("amount", .jnum 7)]])])])) ≠ .jstr s := by
  refine ⟨rfl, fun s h => ?_⟩
  rw [show wallet_balance_result (some (.jobj [("data", .jobj [("tokenBalances",
      .jarr [.jobj [("amount", .jnum 7)]])])])) = .jnum 7 from rfl] at h
  exact absurd h (by simp)

/-- C9 (amended): `wallet_balance` never raises — every parsing failure is
caught and turned into `"0"` — and it returns `"0"` when the body is
unparsable or the token-balance list is empty; otherwise it returns the
`amount` value of the first token balance exactly as the provider encoded
it (a string whenever the provider sends strings), defaulting to `"0"`
when that entry has no `amount` field, and ignoring all later balances. -/
theorem claim_C9 :
    (wallet_balance_result none = .jstr "0") ∧
    (∀ data err, wallet_balance_inner data = .error err →
      wallet_balance_result (some data) = .jstr "0") ∧
    (∀ fields dfields, jsonLookup fields "data" = some (.jobj dfields) →
      jsonLookup dfields "tokenBalances" = some (.jarr []) →
      wallet_balance_result (some (.jobj fields)) = .jstr "0") ∧
    (∀ fields dfields first rest afields,
      jsonLookup fields "data" = some (.jobj dfields) →
      jsonLookup dfields "tokenBalances" = some (.jarr (first :: rest)) →
      first = .jobj afields →
      wallet_balance_result (some (.jobj fields)) =
        (jsonLookup afields "amount").getD (.jstr "0")) := by
  refine ⟨rfl, ?_, ?_, ?_⟩
  · intro data err herr
    rw [wallet_balance_result, herr]
  · intro fields dfields h1 h2
    rw [wallet_balance_result, wallet_balance_inner]
    simp only [pyGetD, h1, Option.getD_some, Except.bind, h2]
    rfl
  · intro fields dfields first rest afields h1 h2 hfirst
    rw [wallet_balance_result, wallet_balance_inner]
    simp only [pyGetD, h1, Option.getD_some, Except.bind, h2, hfirst]
    rfl

/-- Witness for C9: a response with two balances; the first one's amount
string is returned and the second is ignored. -/
theorem claim_C9_witness :
    jsonLookup [("data", JVal.jobj [("tokenBalances", JVal.jarr
        [.jobj [("amount", .jstr "123.45")], .jobj [("amount", .jstr "999")]])])] "data" =
      some (.jobj [("tokenBalances", JVal.jarr
        [.jobj [("amount", .jstr "123.45")], .jobj [("amount", .jstr "999")]])]) ∧
    jsonLookup [("tokenBalances", JVal.jarr
        [.jobj [("amount", .jstr "123.45")], .jobj [("amount", .jstr "999")]])]
      "tokenBalances" = some (.jarr
        [.jobj [("amount", .jstr "123.45")], .jobj [("amount", .jstr "999")]]) ∧
    wallet_balance_result (some (.jobj [("data", JVal.jobj [("tokenBalances", JVal.jarr
        [.jobj [("amount", .jstr "123.45")], .jobj [("amount", .jstr "999")]])])])) =
      (jsonLookup [("amount", JVal.jstr "123.45")] "amount").getD (.jstr "0") :=
  ⟨rfl, rfl,
   claim_C9.2.2.2 [("data", JVal.jobj [("tokenBalances", JVal.jarr
       [.jobj [("amount", .jstr "123.45")], .jobj [("amount", .jstr "999")]])])]
     [("tokenBalances", JVal.jarr
       [.jobj [("amount", .jstr "123.45")], .jobj [("amount", .jstr "999")]])]
     (.jobj [("amount", .jstr "123.45")]) [.jobj [("amount", .jstr "999")]]
     [("amount", JVal.jstr "123.45")] rfl rfl rfl⟩

/-- C10: the `/register`, `/login` and `/get-profile` response bodies never
contain the stored password field, and they are independent of the stored
password: the register response is unchanged under any change of the
submitted password, the profile and login responses are unchanged under
any rewrite of every stored password hash, and the stored hash influences
the login result only through the boolean outcome of the verification
check. -/
theorem claim_C10 :
    (∀ user db hashPw newId w resp, (register_user user db hashPw newId w).1 = .ok resp →
      "password" ∉ resp.map Prod.fst) ∧
    (∀ email password db verifyPw resp, login_user email password db verifyPw = .ok resp →
      "password" ∉ resp.map Prod.fst) ∧
    (∀ email db resp, get_profile email db = .ok resp → "password" ∉ resp.map Prod.fst) ∧
    (∀ (user : UserCreate) (pw1 pw2 : String) db hashPw newId w,
      (register_user { user with password := pw1 } db hashPw newId w).1 =
        (register_user { user with password := pw2 } db hashPw newId w).1) ∧
    (∀ email db f, get_profile email (db.map (setPw f)) = get_profile email db) ∧
    (∀ email password db verifyPw f,
      (∀ u, verifyPw password (f u) = verifyPw password u.password) →
      login_user email password (db.map (setPw f)) verifyPw =
        login_user email password db verifyPw) := by
  refine ⟨?_, ?_, ?_, ?_, ?_, ?_⟩
  · intro user db hashPw newId w resp h
    rw [register_user] at h
    cases hf : findUserByEmail db user.email with
    | some u =>
      simp only [hf] at h
      exact absurd h (by simp)
    | none =>
      simp only [hf, Except.ok.injEq] at h
      rw [← h, userProfileDict_keys]
      decide
  · intro email password db verifyPw resp h
    rw [login_user] at h
    cases hf : findUserByEmail db email with
    | none =>
      simp only [hf] at h
      exact absurd h (by simp)
    | some u =>
      simp only [hf] at h
      by_cases hv : verifyPw password u.password
      · rw [if_pos hv] at h
        simp only [Except.ok.injEq] at h
        rw [← h, userProfileDict_keys]
        decide
      · rw [if_neg hv] at h
        exact absurd h (by simp)
  · intro email db resp h
    rw [get_profile] at h
    cases hf : findUserByEmail db email with
    | none =>
      simp only [hf] at h
      exact absurd h (by simp)
    | some u =>
      simp only [hf, Except.ok.injEq] at h
      rw [← h, userProfileDict_keys]
      decide
  · intro user pw1 pw2 db hashPw newId w
    obtain ⟨em, pw, fn, oc, co, sk, ct, ci, lu, ve⟩ := user
    simp only [register_user]
    cases hf : findUserByEmail db em <;> rfl
  · intro email db f
    simp only [get_profile, findUser_map_setPw]
    cases hf : findUserByEmail db email with
    | none => rfl
    | some u => rfl
  · intro email password db verifyPw f hv
    simp only [login_user, findUser_map_setPw]
    cases hf : findUserByEmail db email with
    | none => rfl
    | some u =>
      simp only [Option.map_some']
      rw [show verifyPw password (setPw f u).password = verifyPw password u.password from hv u]
      rfl

/-- Witness for C10 on a concrete one-user table: the register response
carries no password key, scrubbing the stored hash changes neither the
login nor the profile response, and the register response is the same for
two different submitted passwords. -/
theorem claim_C10_witness :
    "password" ∉ (userProfileDict
      ⟨1, "a@b", "h2", "Ann", "", "", "", "", "", "", false, "wid", "wad"⟩).map Prod.fst ∧
    login_user "a@b" "pw"
        ([⟨1, "a@b", "h1", "Ann", "", "", "", "", "", "", false, "w", "ad"⟩].map
          (setPw fun _ => "X")) (fun _ _ => true) =
      login_user "a@b" "pw"
        [⟨1, "a@b", "h1", "Ann", "", "", "", "", "", "", false, "w", "ad"⟩]
        (fun _ _ => true) ∧
    get_profile "a@b"
        ([⟨1, "a@b", "h1", "Ann", "", "", "", "", "", "", false, "w", "ad"⟩].map
          (setPw fun _ => "X")) =
      get_profile "a@b"
        [⟨1, "a@b", "h1", "Ann", "", "", "", "", "", "", false, "w", "ad"⟩] ∧
    (register_user ⟨"a@b", "pw1", "Ann", "", "", "", "", "", "", false⟩ []
        (fun _ => "H") 1 ("wid", "wad")).1 =
      (register_user ⟨"a@b", "pw2", "Ann", "", "", "", "", "", "", false⟩ []
        (fun _ => "H") 1 ("wid", "wad")).1 := by
  refine ⟨?_, ?_, ?_, ?_⟩
  · exact claim_C10.1 ⟨"a@b", "x", "Ann", "", "", "", "", "", "", false⟩ []
      (fun _ => "h2") 1 ("wid", "wad") _ rfl
  · exact claim_C10.2.2.2.2.2 "a@b" "pw"
      [⟨1, "a@b", "h1", "Ann", "", "", "", "", "", "", false, "w", "ad"⟩]
      (fun _ _ => true) (fun _ => "X") (fun _ => rfl)
  · exact claim_C10.2.2.2.2.1 "a@b"
      [⟨1, "a@b", "h1", "Ann", "", "", "", "", "", "", false, "w", "ad"⟩] (fun _ => "X")
  · exact claim_C10.2.2.2.1 ⟨"a@b", "z", "Ann", "", "", "", "", "", "", false⟩
      "pw1" "pw2" [] (fun _ => "H") 1 ("wid", "wad")
